import Mathlib

/-!
# Identify epics (`web/client/epics/identify.js`)

A shallow embedding of the query executor `getFeatureInfo` and of the epics
`getFeatureInfoOnFeatureInfoClick` and `zoomToVisibleAreaEpic`.

* JavaScript values are the inductive `JSVal`; numbers are integers.
* An observable that can fail is an `Except Fault _`: `Except.ok` is the emitted value,
  `Except.error` the error notification.
* An epic is a step function on an explicit state: the state holds what the reactive
  operators keep alive (the inner subscription of a `switchMap`, the queries of a `mergeMap`
  whose promise is pending, the counter of a `skip`), an input is one thing that happens
  (an action on `action$`, a promise that settles) and the step returns the actions emitted.
* Collaborators that live in other modules (`MapInfoUtils`, `CoordinatesUtils`, `MapUtils`,
  the HTTP client) are parameters. The HTTP client is a function of the request: it tells how
  the request will settle, and an input of the epic tells when.
* `uuid.v1()` returns a fresh id at each call: the ids are the natural numbers in the order
  in which they are generated.
* `action$` carries every action of the application, those the epics emit included: a trace
  lists them in the order of their arrival.
-/

namespace Identify

/-! ## JavaScript values -/

/-- A JavaScript value. Objects are association lists in insertion order. -/
inductive JSVal where
  | undefined : JSVal
  | null : JSVal
  | bool (b : Bool) : JSVal
  | num (n : Int) : JSVal
  | str (s : String) : JSVal
  | arr (xs : List JSVal) : JSVal
  | obj (fields : List (String × JSVal)) : JSVal

/-- The fields of a JavaScript object. -/
abbrev JSObj := List (String × JSVal)

/-- Truthiness, as tested by `if (v)`, `v ? a : b`, `v && w` and `v || w`. -/
def truthy : JSVal → Bool
  | .undefined => false
  | .null => false
  | .bool b => b
  | .num n => n != 0
  | .str s => s != ""
  | .arr _ => true
  | .obj _ => true

/-- The lodash test `isNil(v)`: `v` is `null` or `undefined`. -/
def isNil : JSVal → Bool
  | .undefined => true
  | .null => true
  | _ => false

/-- The lodash test `isString(v)`. -/
def isString : JSVal → Bool
  | .str _ => true
  | _ => false

/-- Strict equality `a === b`. Two objects or arrays are equal only when they are the same
reference; the values compared here come from different sources (a response body and the
store), so such a comparison is false. -/
def strictEq : JSVal → JSVal → Bool
  | .undefined, .undefined => true
  | .null, .null => true
  | .bool a, .bool b => a == b
  | .num a, .num b => a == b
  | .str a, .str b => a == b
  | _, _ => false

/-- The expression `a || b`. -/
def jsOr (a b : JSVal) : JSVal := if truthy a then a else b

/-- Property read `o[k]` on an object: the value stored under `k`, else `undefined`. -/
def objGet : JSObj → String → JSVal
  | [], _ => .undefined
  | (k, v) :: rest, key => if k == key then v else objGet rest key

/-- Property write: replaces the value under `k` in place, or appends a new field. -/
def objSet : JSObj → String → JSVal → JSObj
  | [], key, v => [(key, v)]
  | (k, w) :: rest, key, v => if k == key then (k, v) :: rest else (k, w) :: objSet rest key v

/-- Object spread of two objects, `{...a, ...b}`. -/
def objSpread (a b : JSObj) : JSObj :=
  b.foldl (fun acc kv => objSet acc kv.1 kv.2) a

/-- The keys `"0"`, `"1"`, ... paired with the elements of an array, from index `i`. -/
def indexFields : Nat → List JSVal → JSObj
  | _, [] => []
  | i, x :: xs => (toString i, x) :: indexFields (i + 1) xs

/-- The own enumerable properties that `{...v}` copies from a value `v`. -/
def spreadOf : JSVal → JSObj
  | .obj fs => fs
  | .arr xs => indexFields 0 xs
  | .str s => indexFields 0 (s.data.map (fun c => JSVal.str (String.singleton c)))
  | _ => []

/-- What an observable delivers as an error notification. -/
inductive Fault where
  /-- A rejection of the HTTP client, with the diagnostic fields the epic reads. -/
  | transport (data statusText status : JSVal) : Fault
  /-- A `TypeError` thrown while a callback runs; it has none of the three fields. -/
  | typeError : Fault

/-- The expression `e.data || e.statusText || e.status` on an error `e`. -/
def Fault.diagnostic : Fault → JSVal
  | .transport data statusText status => jsOr (jsOr data statusText) status
  | .typeError => jsOr (jsOr .undefined .undefined) .undefined

/-- Property read `v.k` for a property name `k` that is no built-in member of strings, arrays
or numbers (`features`, `crs`, `id`, `exceptions`): a `TypeError` on `null` and `undefined`,
`undefined` on the other primitives and on arrays. -/
def getField (v : JSVal) (k : String) : Except Fault JSVal :=
  match v with
  | .undefined => .error .typeError
  | .null => .error .typeError
  | .obj fs => .ok (objGet fs k)
  | _ => .ok .undefined

/-- Keeps the elements on which `p` answers `true`; fails as soon as `p` throws. -/
def filterThrowing (p : JSVal → Except Fault Bool) : List JSVal → Except Fault (List JSVal)
  | [] => .ok []
  | x :: xs =>
    match p x with
    | .error e => .error e
    | .ok b =>
      match filterThrowing p xs with
      | .error e => .error e
      | .ok rest => .ok (if b then x :: rest else rest)

/-- The call `v.filter(p)`: `Array.prototype.filter` on an array, a `TypeError` on any other
value (a value parsed from JSON has no callable `filter` member). -/
def jsFilter (v : JSVal) (p : JSVal → Except Fault Bool) : Except Fault JSVal :=
  match v with
  | .arr xs =>
    match filterThrowing p xs with
    | .error e => .error e
    | .ok ys => .ok (.arr ys)
  | _ => .error .typeError

/-! ## The query executor `getFeatureInfo` -/

/-- The response object the HTTP client resolves with. -/
structure AxiosResponse where
  data : JSVal
  status : JSVal
  statusText : JSVal
  headers : JSVal
  config : JSVal
  request : JSVal

/-- The record `getFeatureInfo` emits: `{...response, features, featuresCrs}` in the two-fetch
branch, `{data, features, featuresCrs}` in the single-fetch branch, where the fields of the
response other than `data` are absent (`undefined`). -/
structure FeatureInfoResponse where
  data : JSVal
  status : JSVal
  statusText : JSVal
  headers : JSVal
  config : JSVal
  request : JSVal
  features : JSVal
  featuresCrs : JSVal

/-- The HTTP client: `axios.get(basePath, { params })` settles with a response or a fault. -/
abbrev Transport := JSVal → JSObj → Except Fault AxiosResponse

/-- The filter callback of the two-fetch branch, `f => !isNil(itemId) ? f.id === itemId : true`. -/
def pinnedNotNil (itemId : JSVal) (f : JSVal) : Except Fault Bool :=
  if !isNil itemId then
    match getField f "id" with
    | .error e => .error e
    | .ok i => .ok (strictEq i itemId)
  else .ok true

/-- The filter callback of the single-fetch branch, `f => itemId ? f.id === itemId : true`. -/
def pinnedTruthy (itemId : JSVal) (f : JSVal) : Except Fault Bool :=
  if truthy itemId then
    match getField f "id" with
    | .error e => .error e
    | .ok i => .ok (strictEq i itemId)
  else .ok true

/-- The expression `data && data.features && data.features.filter(p)`. -/
def featuresOf (data : JSVal) (p : JSVal → Except Fault Bool) : Except Fault JSVal :=
  if truthy data then
    match getField data "features" with
    | .error e => .error e
    | .ok fs => if truthy fs then jsFilter fs p else .ok fs
  else .ok data

/-- The expression `data.features && data.features.filter(p)`, without the guard on `data`. -/
def featuresOfUnguarded (data : JSVal) (p : JSVal → Except Fault Bool) : Except Fault JSVal :=
  match getField data "features" with
  | .error e => .error e
  | .ok fs => if truthy fs then jsFilter fs p else .ok fs

/-- The expression `data && data.crs && parseURN(data.crs)`. -/
def featuresCrsOf (parseURN : JSVal → JSVal) (data : JSVal) : Except Fault JSVal :=
  if truthy data then
    match getField data "crs" with
    | .error e => .error e
    | .ok crs => .ok (if truthy crs then parseURN crs else crs)
  else .ok data

/-- The secondary flow `retrieveFlow({...param, info_format: "application/json"})
.map(res => res.data).catch(() => Rx.Observable.of({}))`. -/
def secondaryFlow (axiosGet : Transport) (basePath : JSVal) (param : JSObj) : JSVal :=
  match axiosGet basePath (objSet param "info_format" (.str "application/json")) with
  | .ok res => res.data
  | .error _ => .obj []

/-- The projection of the `forkJoin`: `([response, data]) => ({...response, features, featuresCrs})`. -/
def mergeGeometry (parseURN : JSVal → JSVal) (itemId : JSVal) (response : AxiosResponse)
    (data : JSVal) : Except Fault FeatureInfoResponse :=
  match featuresOf data (pinnedNotNil itemId) with
  | .error e => .error e
  | .ok features =>
    match featuresCrsOf parseURN data with
    | .error e => .error e
    | .ok featuresCrs =>
      .ok { data := response.data, status := response.status, statusText := response.statusText,
            headers := response.headers, config := response.config, request := response.request,
            features := features, featuresCrs := featuresCrs }

/-- The projection of the single-fetch branch, applied to `res.data`:
`(data = {}) => ({data: isString(data) ? data : {...data, features}, features, featuresCrs})`. -/
def singleFetch (parseURN : JSVal → JSVal) (itemId : JSVal) (resData : JSVal) :
    Except Fault FeatureInfoResponse :=
  let data : JSVal := match resData with
    | .undefined => .obj []
    | d => d
  let inner : Except Fault JSVal :=
    if isString data then .ok data
    else
      match featuresOfUnguarded data (pinnedTruthy itemId) with
      | .error e => .error e
      | .ok fs => .ok (.obj (objSet (spreadOf data) "features" fs))
  match inner with
  | .error e => .error e
  | .ok d =>
    match featuresOfUnguarded data (pinnedTruthy itemId) with
    | .error e => .error e
    | .ok features =>
      match featuresCrsOf parseURN data with
      | .error e => .error e
      | .ok featuresCrs =>
        .ok { data := d, status := .undefined, statusText := .undefined, headers := .undefined,
              config := .undefined, request := .undefined,
              features := features, featuresCrs := featuresCrs }

/-- The executor `getFeatureInfo(basePath, param, attachJSON, itemId)`: what the observable it
returns delivers once its requests have settled. In the two-fetch branch `forkJoin` fails when
the primary flow fails; the secondary flow cannot fail. -/
def getFeatureInfo (axiosGet : Transport) (parseURN : JSVal → JSVal) (basePath : JSVal)
    (param : JSObj) (attachJSON : Bool) (itemId : JSVal) : Except Fault FeatureInfoResponse :=
  if attachJSON && !strictEq (objGet param "info_format") (.str "application/json") then
    match axiosGet basePath param with
    | .error e => .error e
    | .ok response => mergeGeometry parseURN itemId response (secondaryFlow axiosGet basePath param)
  else
    match axiosGet basePath param with
    | .error e => .error e
    | .ok res => singleFetch parseURN itemId res.data

/-! ## Actions -/

/-- A layer of the map: its stable name and the rest of its configuration. -/
structure Layer where
  name : String
  config : JSVal

/-- The `point` of a click: the fields the epics read. -/
structure Point where
  latlng : JSVal
  cartographic : JSVal
  modifiers : JSVal
  multiSelection : JSVal

/-- The payload of a `FEATURE_INFO_CLICK` action. An absent field is `none`. -/
structure ClickPayload where
  point : Option Point
  layer : JSVal
  filterNameList : Option (List String)
  overrideParams : Option (List (String × JSObj))
  itemId : JSVal

/-- The size of the map in pixels. -/
structure MapSize where
  width : Int
  height : Int

/-- Modelled from the spec: the action creators of `actions/mapInfo` and `actions/map`, which
the source file imports but does not define. Each creator builds the named event of the
spec's list of emitted events and records its arguments: `purgeResults`,
`noQueryableLayers`, `requestStarted(requestId, params)`,
`resultLoaded(requestId, data, params, metadata, layer)`,
`resultExceptions(requestId, exceptions, params, metadata)`,
`resultErrored(requestId, faultPayload, params, metadata)`,
`vectorInfoLoaded(layer, request, metadata)`, `recenterStatus(enabled|disabled)` and
`changeViewport(center, zoom, bbox, size, rotation?, projection)`. The constructor decides
the type that `ofType` tests. -/
inductive Action where
  | featureInfoClick (click : ClickPayload) : Action
  | purgeMapInfoResults : Action
  | noQueryableLayers : Action
  | newMapInfoRequest (reqId : Nat) (request : JSObj) : Action
  | loadFeatureInfo (reqId : Nat) (data : JSVal) (requestParams : JSObj) (layerMetadata : JSObj)
      (layer : Layer) : Action
  | exceptionsFeatureInfo (reqId : Nat) (exceptions : JSVal) (requestParams : JSObj)
      (layerMetadata : JSObj) : Action
  | errorFeatureInfo (reqId : Nat) (error : JSVal) (requestParams : JSObj)
      (layerMetadata : JSObj) : Action
  | getVectorInfo (layer : Layer) (request : JSObj) (metadata : JSObj) : Action
  | closeIdentify : Action
  | updateCenterToMarker (status : String) : Action
  | zoomToPoint (pos : JSVal) (zoom : JSVal) (crs : JSVal) : Action
  | changeMapView (center : JSVal) (zoom : Int) (bbox : JSVal) (size : Option MapSize)
      (mapStateSource : JSVal) (projection : JSVal) : Action
  | other (type : String) : Action

/-- The action has type `FEATURE_INFO_CLICK`. -/
def Action.isClick : Action → Bool
  | .featureInfoClick _ => true
  | _ => false

/-- The action is a started event (`NEW_MAPINFO_REQUEST`). -/
def Action.isStarted : Action → Bool
  | .newMapInfoRequest _ _ => true
  | _ => false

/-- The action is a terminal event of a per-layer query: loaded, exceptions or errored. -/
def Action.isTerminal : Action → Bool
  | .loadFeatureInfo _ _ _ _ _ => true
  | .exceptionsFeatureInfo _ _ _ _ => true
  | .errorFeatureInfo _ _ _ _ => true
  | _ => false

/-- The action is a vector-info event (`GET_VECTOR_INFO`). -/
def Action.isVectorInfo : Action → Bool
  | .getVectorInfo _ _ _ => true
  | _ => false

/-- The action has type `PURGE_MAPINFO_RESULTS`. -/
def Action.isPurge : Action → Bool
  | .purgeMapInfoResults => true
  | _ => false

/-- The request id an action carries, if it is a started or a terminal event. -/
def Action.requestId : Action → Option Nat
  | .newMapInfoRequest r _ => some r
  | .loadFeatureInfo r _ _ _ _ => some r
  | .exceptionsFeatureInfo r _ _ _ => some r
  | .errorFeatureInfo r _ _ _ => some r
  | _ => none

/-! ## The store and the collaborators -/

/-- The map of the store, as far as the epics read it. -/
structure MapState where
  center : JSVal
  zoom : Int
  size : Option MapSize
  projection : JSVal

/-- The layout insets `boundingMapRect`. -/
structure BoundingMapRect where
  left : JSVal
  bottom : JSVal
  right : JSVal
  top : JSVal

/-- The object `layoutBounds` the recentring handler builds. -/
structure LayoutBounds where
  left : Int
  bottom : Int
  right : Int
  top : Int

/-- An entry of `projectionDefs`. -/
structure ProjectionDef where
  code : String
  extent : JSVal

/-- What the selectors read from one value of `getState()`. -/
structure StoreState where
  queryableLayers : List Layer
  queryableSelectedLayers : List Layer
  identifyOptions : JSVal
  itemId : JSVal
  overrideParams : Option (List (String × JSObj))
  isHighlightEnabled : Bool
  centerToMarker : Bool
  map : Option MapState
  projection : String
  projectionDefs : List ProjectionDef
  boundingMapRect : Option BoundingMapRect
  isMouseMoveIdentifyActive : Bool

/-- The result `{url, request, metadata}` of `MapInfoUtils.buildIdentifyRequest`. -/
structure IdentifyRequest where
  url : JSVal
  request : JSObj
  metadata : JSObj

/-- The result `{pos, zoom, crs}` of `centerToVisibleArea`. -/
structure VisibleCenter where
  pos : JSVal
  zoom : JSVal
  crs : JSVal

/-- The functions the epics call in `MapInfoUtils`, `CoordinatesUtils` and `MapUtils`. -/
structure Collaborators where
  buildIdentifyRequest : Layer → JSVal → IdentifyRequest
  filterRequestParams : Layer → List String → List String → JSObj
  parseURN : JSVal → JSVal
  getCurrentResolution : Int → Int → Int → Int → JSVal
  parseLayoutValue : JSVal → Int → Int
  reprojectBbox : JSVal → String → String → JSVal
  isInsideVisibleArea : JSVal → MapState → LayoutBounds → JSVal → Bool
  isPointInsideExtent : JSVal → JSVal → Bool
  centerToVisibleArea : JSVal → MapState → LayoutBounds → JSVal → VisibleCenter
  getBbox : JSVal → Int → JSVal

/-- Lookup `m[key]` in a map from layer names to parameter objects. -/
def lookupParams : List (String × JSObj) → String → Option JSObj
  | [], _ => none
  | (k, v) :: rest, key => if k == key then some v else lookupParams rest key

/-- Spread of an optional object: `{...a, ...b}` where `b` may be `undefined`. -/
def spreadOpt (a : JSObj) : Option JSObj → JSObj
  | none => a
  | some b => objSpread a b

/-! ## `getFeatureInfoOnFeatureInfoClick` -/

/-- The call `s.indexOf(pat)` on strings given as character lists, searching from the position
`i` of the first character of `s`: the index of the first occurrence, or `-1`. -/
def indexOfFrom (pat : List Char) : List Char → Nat → Int
  | [], i => if pat.isEmpty then (i : Int) else -1
  | c :: cs, i => if pat.isPrefixOf (c :: cs) then (i : Int) else indexOfFrom pat cs (i + 1)

/-- The call `s.indexOf(pat)`; the strings are searched character by character. -/
def indexOf (s pat : String) : Int := indexOfFrom pat.data s.data 0

/-- The filter callback on the resolved layers:
`l => filterNameList.length ? (filterNameList.filter(name => name.indexOf(l.name) !== -1).length > 0) : true`. -/
def layerRetained (filterNameList : List String) (l : Layer) : Bool :=
  if filterNameList.length != 0 then
    decide ((filterNameList.filter (fun name => indexOf name l.name != -1)).length > 0)
  else true

/-- The resolved layer set: `queryableSelectedLayers` when it has a length, else
`queryableLayers`. -/
def resolveLayers (state : StoreState) : List Layer :=
  if state.queryableSelectedLayers.length != 0 then state.queryableSelectedLayers
  else state.queryableLayers

/-- The constant `excludeParams`. -/
def excludeParams : List String := ["SLD_BODY"]

/-- The constant `includeOptions`. -/
def includeOptions : List String := ["buffer", "cql_filter", "filter", "propertyName"]

/-- A per-layer query whose executor has been invoked and has not settled: the values the
callbacks of `.map` and `.catch` close over, and what the executor delivers when it settles. -/
structure Pending where
  reqId : Nat
  requestParams : JSObj
  lMetaData : JSObj
  layer : Layer
  outcome : Except Fault FeatureInfoResponse

/-- The callback of `.map` on the executor:
`response => response.data.exceptions ? exceptionsFeatureInfo(...) : loadFeatureInfo(...)`. -/
def mapResponse (reqId : Nat) (requestParams lMetaData : JSObj) (layer : Layer)
    (response : FeatureInfoResponse) : Except Fault Action :=
  match getField response.data "exceptions" with
  | .error e => .error e
  | .ok exceptions =>
    if truthy exceptions then
      .ok (.exceptionsFeatureInfo reqId exceptions requestParams lMetaData)
    else
      .ok (.loadFeatureInfo reqId response.data requestParams
        (objSet (objSet lMetaData "features" response.features) "featuresCrs" response.featuresCrs)
        layer)

/-- The callback of `.catch`:
`e => Rx.Observable.of(errorFeatureInfo(reqId, e.data || e.statusText || e.status, requestParams, lMetaData))`. -/
def catchFault (reqId : Nat) (requestParams lMetaData : JSObj) (e : Fault) : Action :=
  .errorFeatureInfo reqId e.diagnostic requestParams lMetaData

/-- The event `getFeatureInfo(...).map(...).catch(...)` emits for an outcome of the executor:
an error of the executor and an exception thrown by the callback of `.map` both reach the
callback of `.catch`. -/
def terminalEvent (reqId : Nat) (requestParams lMetaData : JSObj) (layer : Layer)
    (outcome : Except Fault FeatureInfoResponse) : Action :=
  match outcome with
  | .error e => catchFault reqId requestParams lMetaData e
  | .ok response =>
    match mapResponse reqId requestParams lMetaData layer response with
    | .error e => catchFault reqId requestParams lMetaData e
    | .ok a => a

/-- The terminal event of a pending query. -/
def Pending.terminal (p : Pending) : Action :=
  terminalEvent p.reqId p.requestParams p.lMetaData p.layer p.outcome

/-- What the observable returned by the callback of `mergeMap` does for one layer. -/
inductive LayerFlow where
  /-- A direct endpoint: the started event is emitted on subscription and the executor is
  invoked; the terminal event follows when the executor settles. -/
  | direct (started : Action) (query : Pending) : LayerFlow
  /-- No endpoint: `Rx.Observable.of(getVectorInfo(layer, request, metadata))`. -/
  | vector (info : Action) : LayerFlow

/-- The request of a layer after the two overrides: the one of the store, applied when an item
is pinned and the store has an override map, then the one of the event. -/
def overriddenRequest (state : StoreState) (overrideParams : List (String × JSObj))
    (layer : Layer) (request : JSObj) : JSObj :=
  let request1 :=
    match truthy state.itemId, state.overrideParams with
    | true, some m => spreadOpt request (lookupParams m layer.name)
    | _, _ => request
  match lookupParams overrideParams layer.name with
  | some o => objSpread request1 o
  | none => request1

/-- The callback of `mergeMap` for one layer. `state` is the value of `getState()` while the
callback runs and `reqId` is the value `uuid.v1()` returns if the callback calls it. -/
def projectLayer (c : Collaborators) (axiosGet : Transport) (state : StoreState)
    (overrideParams : List (String × JSObj)) (reqId : Nat) (layer : Layer) : LayerFlow :=
  let built := c.buildIdentifyRequest layer state.identifyOptions
  let request := overriddenRequest state overrideParams layer built.request
  if truthy built.url then
    let appParams := c.filterRequestParams layer includeOptions excludeParams
    let param := objSpread appParams request
    .direct (.newMapInfoRequest reqId param)
      { reqId := reqId, requestParams := request, lMetaData := built.metadata, layer := layer,
        outcome := getFeatureInfo axiosGet c.parseURN built.url param
          state.isHighlightEnabled state.itemId }
  else
    .vector (.getVectorInfo layer request built.metadata)

/-- The event a layer's observable emits on subscription. -/
def LayerFlow.immediate : LayerFlow → Action
  | .direct started _ => started
  | .vector info => info

/-- The query a layer's observable leaves pending, if any. -/
def LayerFlow.pending : LayerFlow → List Pending
  | .direct _ q => [q]
  | .vector _ => []

/-- All events a layer's observable emits, in order, once its executor has settled. -/
def LayerFlow.events : LayerFlow → List Action
  | .direct started q => [started, q.terminal]
  | .vector info => [info]

/-- What the epic is given when an action arrives: the store as `getState()` returns it while
the callback of `switchMap` runs, the store as it returns it while the callback of `mergeMap`
runs for the retained layer at position `i` (the actions emitted in between are dispatched
and may have changed it), and the HTTP client. -/
structure World where
  state : StoreState
  layerState : Nat → StoreState
  axiosGet : Transport

/-- The observable `Rx.Observable.from(layers).mergeMap(...)`: the flows of the layers, in the
order of the array. The layer at the head has position `i`, and `nextId` is the value the
next call of `uuid.v1()` returns; a direct layer consumes one id. -/
def fanOut (c : Collaborators) (w : World) (overrideParams : List (String × JSObj)) :
    List Layer → Nat → Nat → List LayerFlow
  | [], _, _ => []
  | l :: ls, i, nextId =>
    let flow := projectLayer c w.axiosGet (w.layerState i) overrideParams nextId l
    flow :: fanOut c w overrideParams ls (i + 1) (nextId + flow.pending.length)

/-- The property read `point.modifiers.ctrl`, evaluated when `point.modifiers` is truthy. -/
def ctrlOf : JSVal → JSVal
  | .obj fs => objGet fs "ctrl"
  | _ => .undefined

/-- The test `point && point.modifiers && point.modifiers.ctrl === true && point.multiSelection`. -/
def isMultiSelection : Option Point → Bool
  | none => false
  | some p => truthy p.modifiers && strictEq (ctrlOf p.modifiers) (.bool true)
      && truthy p.multiSelection

/-- The layers the fan-out runs over: the resolved layers that pass the name filter. -/
def retainedLayers (w : World) (click : ClickPayload) : List Layer :=
  (resolveLayers w.state).filter (layerRetained (click.filterNameList.getD []))

/-- The flows of the fan-out a click starts. -/
def clickFlows (c : Collaborators) (w : World) (nextId : Nat) (click : ClickPayload) :
    List LayerFlow :=
  fanOut c w (click.overrideParams.getD []) (retainedLayers w click) 0 nextId

/-- The queries a list of flows leaves pending. -/
def pendingOf (flows : List LayerFlow) : List Pending :=
  flows.flatMap LayerFlow.pending

/-- What the inner observable of the `switchMap` does when it is subscribed. -/
structure ClickResult where
  /-- The actions emitted on subscription, in order. -/
  emitted : List Action
  /-- The queries whose executor has been invoked. -/
  pending : List Pending

/-- The callback of `switchMap`, `({ point, filterNameList = [], overrideParams = {} }) => ...`,
together with the subscription to the observable it returns. -/
def onFeatureInfoClick (c : Collaborators) (w : World) (nextId : Nat) (click : ClickPayload) :
    ClickResult :=
  if (resolveLayers w.state).length == 0 then
    { emitted := [.purgeMapInfoResults, .noQueryableLayers], pending := [] }
  else
    let flows := clickFlows c w nextId click
    let out := flows.map LayerFlow.immediate
    if isMultiSelection click.point then
      { emitted := out, pending := pendingOf flows }
    else
      { emitted := .purgeMapInfoResults :: out, pending := pendingOf flows }

/-- The state of the epic: the number of request ids generated so far (`uuid.v1()` returns a
fresh id at each call, modelled as the next number) and the queries of the live fan-out whose
executor has not settled. -/
structure ClickEpic where
  nextId : Nat
  inflight : List Pending

/-- One thing that happens to the epic. -/
inductive ClickInput where
  /-- An action arrives on `action$`. -/
  | action (a : Action) (w : World) : ClickInput
  /-- The executor invoked for the request id settles (its promise resolves or rejects). -/
  | settled (reqId : Nat) : ClickInput

/-- The epic `getFeatureInfoOnFeatureInfoClick`, one input at a time. A click replaces the
inner observable of the `switchMap`: the queries of the previous fan-out are unsubscribed and
those of the new one take their place. An executor that settles emits the terminal event of
its query if that query is still subscribed. Other actions do not pass `ofType`. -/
def getFeatureInfoOnFeatureInfoClick (c : Collaborators) (s : ClickEpic) :
    ClickInput → ClickEpic × List Action
  | .action (.featureInfoClick click) w =>
    let r := onFeatureInfoClick c w s.nextId click
    ({ nextId := s.nextId + r.pending.length, inflight := r.pending }, r.emitted)
  | .action _ _ => (s, [])
  | .settled reqId =>
    match s.inflight.find? (fun p => p.reqId == reqId) with
    | some p => ({ s with inflight := s.inflight.filter (fun q => q.reqId != reqId) }, [p.terminal])
    | none => (s, [])

/-- The epic on a sequence of inputs: the final state and all actions emitted, in order. -/
def runClickEpic (c : Collaborators) : ClickEpic → List ClickInput → ClickEpic × List Action
  | s, [] => (s, [])
  | s, i :: rest =>
    ((runClickEpic c (getFeatureInfoOnFeatureInfoClick c s i).1 rest).1,
      (getFeatureInfoOnFeatureInfoClick c s i).2
        ++ (runClickEpic c (getFeatureInfoOnFeatureInfoClick c s i).1 rest).2)

/-- The inputs that are not a click: a fan-out already started receives only these until the
next interaction event. -/
def ClickInput.isClick : ClickInput → Bool
  | .action a _ => a.isClick
  | .settled _ => false

/-- The request of a layer as the callback of `mergeMap` computes it (`requestParams`). -/
def layerRequest (c : Collaborators) (state : StoreState) (overrideParams : List (String × JSObj))
    (layer : Layer) : JSObj :=
  overriddenRequest state overrideParams layer
    (c.buildIdentifyRequest layer state.identifyOptions).request

/-- The parameters sent for a layer, `{...appParams, ...requestParams}` (`param`). -/
def layerParam (c : Collaborators) (state : StoreState) (overrideParams : List (String × JSObj))
    (layer : Layer) : JSObj :=
  objSpread (c.filterRequestParams layer includeOptions excludeParams)
    (layerRequest c state overrideParams layer)

/-- The outcome of the executor invoked for a layer. -/
def layerOutcome (c : Collaborators) (axiosGet : Transport) (state : StoreState)
    (overrideParams : List (String × JSObj)) (layer : Layer) :
    Except Fault FeatureInfoResponse :=
  getFeatureInfo axiosGet c.parseURN (c.buildIdentifyRequest layer state.identifyOptions).url
    (layerParam c state overrideParams layer) state.isHighlightEnabled state.itemId

/-- The terminal event of the query of a layer that has the request id `reqId`. -/
def layerTerminal (c : Collaborators) (axiosGet : Transport) (state : StoreState)
    (overrideParams : List (String × JSObj)) (reqId : Nat) (layer : Layer) : Action :=
  terminalEvent reqId (layerRequest c state overrideParams layer)
    (c.buildIdentifyRequest layer state.identifyOptions).metadata layer
    (layerOutcome c axiosGet state overrideParams layer)

/-- The layer a flow is about: the one its query closed over, or the one its vector-info event
carries. -/
def LayerFlow.layer : LayerFlow → Option Layer
  | .direct _ q => some q.layer
  | .vector (.getVectorInfo l _ _) => some l
  | .vector _ => none

/-! ## `zoomToVisibleAreaEpic` -/

/-- The value of `layoutBounds`:
`boundingMapRect && map && map.size && {left: parseLayoutValue(...), ...}`; `none` when one of
the three is missing. -/
def layoutBoundsOf (c : Collaborators) (boundingMapRect : Option BoundingMapRect)
    (map : Option MapState) : Option LayoutBounds :=
  match boundingMapRect, map with
  | some r, some m =>
    match m.size with
    | some size =>
      some { left := c.parseLayoutValue r.left size.width,
             bottom := c.parseLayoutValue r.bottom size.height,
             right := c.parseLayoutValue r.right size.width,
             top := c.parseLayoutValue r.top size.height }
    | none => none
  | _, _ => none

/-- The value of `resolution`, `getCurrentResolution(Math.round(map.zoom), 0, 21, 96)`: the
property read `map.zoom` is a `TypeError` when there is no map. The zoom is an integer, which
`Math.round` leaves unchanged. -/
def resolutionOf (c : Collaborators) (map : Option MapState) : Except Fault JSVal :=
  match map with
  | none => .error .typeError
  | some m => .ok (c.getCurrentResolution m.zoom 0 21 96)

/-- The value of `reprojectExtent`: the extent of the definition of the map projection,
reprojected, or a falsy value when there is none. -/
def reprojectExtentOf (c : Collaborators) (state : StoreState) : JSVal :=
  let projectionExtent : JSVal :=
    match state.projectionDefs.find? (fun d => d.code == state.projection) with
    | some d => d.extent
    | none => .undefined
  if truthy projectionExtent then c.reprojectBbox projectionExtent state.projection "EPSG:4326"
  else projectionExtent

/-- The value of `coords`, `action.point && action.point && action.point.latlng`. -/
def coordsOf (action : ClickPayload) : JSVal :=
  match action.point with
  | some p => p.latlng
  | none => .undefined

/-- The value of `action.point.cartographic`, read when `coords` is truthy. -/
def cartographicOf (action : ClickPayload) : JSVal :=
  match action.point with
  | some p => p.cartographic
  | none => .undefined

/-- The observable the callback of the inner `switchMap` returns. -/
inductive Recentring where
  /-- `Rx.Observable.of(updateCenterToMarker('disabled'))`. -/
  | disabled : Recentring
  /-- `Rx.Observable.empty()`. -/
  | silent : Recentring
  /-- `Rx.Observable.of(updateCenterToMarker('enabled'), zoomToPoint(...)).concat(...)`,
  whose restore closes over `map`. -/
  | recenter (center : VisibleCenter) (map : MapState) : Recentring

/-- The callback of the inner `switchMap`, run when a `LOAD_FEATURE_INFO` or
`ERROR_FEATURE_INFO` action follows the click `action`; `state` is `store.getState()`. The
statements run in the order of the source: `resolution` is computed before the guard. -/
def onTerminalEvent (c : Collaborators) (state : StoreState) (action : ClickPayload) :
    Except Fault Recentring :=
  let map := state.map
  let reprojectExtent := reprojectExtentOf c state
  let coords := coordsOf action
  match resolutionOf c map with
  | .error e => .error e
  | .ok resolution =>
    match map, layoutBoundsOf c state.boundingMapRect map with
    | some m, some layoutBounds =>
      if !truthy coords || truthy (cartographicOf action)
          || c.isInsideVisibleArea coords m layoutBounds resolution
          || state.isMouseMoveIdentifyActive then
        .ok .disabled
      else if truthy reprojectExtent && !c.isPointInsideExtent coords reprojectExtent then
        .ok .silent
      else
        .ok (.recenter (c.centerToVisibleArea coords m layoutBounds resolution) m)
    | _, _ => .ok .disabled

/-- An armed restore: the map the callback closed over, and the number of `CHANGE_MAP_VIEW`
actions the notifier `action$.ofType(CHANGE_MAP_VIEW).skip(1)` has received. -/
structure Restore where
  map : MapState
  changes : Nat

/-- The state of the epic: the click the live inner observable of the outer `switchMap`
closed over, and the restore the live observable of the inner `switchMap` listens with. -/
structure ZoomEpic where
  click : Option ClickPayload
  restore : Option Restore

/-- The action the restore emits,
`changeMapView(map.center, map.zoom, bbox, map.size, null, map.projection)`. -/
def restoreAction (c : Collaborators) (map : MapState) : Action :=
  .changeMapView map.center map.zoom (c.getBbox map.center map.zoom) map.size .null
    map.projection

/-- The reaction of the epic to a terminal event while a click is live. -/
def onTerminalAction (c : Collaborators) (s : ZoomEpic) (state : StoreState)
    (action : ClickPayload) : Except Fault (ZoomEpic × List Action) :=
  match onTerminalEvent c state action with
  | .error e => .error e
  | .ok .disabled => .ok ({ s with restore := none }, [.updateCenterToMarker "disabled"])
  | .ok .silent => .ok ({ s with restore := none }, [])
  | .ok (.recenter center map) =>
    .ok ({ s with restore := some { map := map, changes := 0 } },
      [.updateCenterToMarker "enabled", .zoomToPoint center.pos center.zoom center.crs])

/-- The epic `zoomToVisibleAreaEpic`, one action of `action$` at a time; `state` is the value
of `store.getState()` when the action arrives.

* A click that passes the filter on `centerToMarkerSelector` replaces the inner observable of
  the outer `switchMap`, which unsubscribes whatever the previous one had armed.
* A terminal event replaces the observable of the inner `switchMap` by the one the callback
  returns; an exception thrown by the callback is an error notification of the epic.
* While a restore is armed, each `CLOSE_IDENTIFY` emits the restore action, and the second
  `CHANGE_MAP_VIEW` received since the restore was armed completes it (`takeUntil`). -/
def zoomToVisibleAreaEpic (c : Collaborators) (s : ZoomEpic) (a : Action) (state : StoreState) :
    Except Fault (ZoomEpic × List Action) :=
  match a with
  | .featureInfoClick click =>
    if state.centerToMarker then .ok ({ click := some click, restore := none }, [])
    else .ok (s, [])
  | .loadFeatureInfo _ _ _ _ _ =>
    match s.click with
    | some action => onTerminalAction c s state action
    | none => .ok (s, [])
  | .errorFeatureInfo _ _ _ _ =>
    match s.click with
    | some action => onTerminalAction c s state action
    | none => .ok (s, [])
  | .closeIdentify =>
    match s.restore with
    | some r => .ok (s, [restoreAction c r.map])
    | none => .ok (s, [])
  | .changeMapView _ _ _ _ _ _ =>
    match s.restore with
    | some r =>
      if r.changes ≥ 1 then .ok ({ s with restore := none }, [])
      else .ok ({ s with restore := some { r with changes := r.changes + 1 } }, [])
    | none => .ok (s, [])
  | _ => .ok (s, [])

/-- The result of running the epic on a sequence of actions: the state reached, the actions
emitted, and the error notification that ended the epic, if any. -/
structure ZoomRun where
  state : ZoomEpic
  emitted : List Action
  failed : Option Fault

/-- The epic on a sequence of actions, each with the store at its arrival. An error
notification ends the epic: the actions that follow are not handled. -/
def runZoomEpic (c : Collaborators) : ZoomEpic → List (Action × StoreState) → ZoomRun
  | s, [] => { state := s, emitted := [], failed := none }
  | s, (a, state) :: rest =>
    match zoomToVisibleAreaEpic c s a state with
    | .error e => { state := s, emitted := [], failed := some e }
    | .ok (s1, out) =>
      { state := (runZoomEpic c s1 rest).state,
        emitted := out ++ (runZoomEpic c s1 rest).emitted,
        failed := (runZoomEpic c s1 rest).failed }

/-- The action starts a recentring decision: `LOAD_FEATURE_INFO` or `ERROR_FEATURE_INFO`. -/
def Action.isLoadOrError : Action → Bool
  | .loadFeatureInfo _ _ _ _ _ => true
  | .errorFeatureInfo _ _ _ _ => true
  | _ => false

/-- The action has type `CHANGE_MAP_VIEW`. -/
def Action.isChangeMapView : Action → Bool
  | .changeMapView _ _ _ _ _ _ => true
  | _ => false

/-- The number of `CHANGE_MAP_VIEW` actions in a sequence of actions. -/
def viewChanges (inputs : List (Action × StoreState)) : Nat :=
  (inputs.filter (fun i => i.1.isChangeMapView)).length

/-- Where an armed restore comes from, `past` being the actions handled since a recenter that
captured the map `m0`: either it was armed by a terminal event of `past`, with the map the
store had then, or it is the restore of that recenter, which has counted every
`CHANGE_MAP_VIEW` of `past` and has not yet seen two of them. -/
def RestoreOrigin (m0 : MapState) (past : List (Action × StoreState)) (s : ZoomEpic) : Prop :=
  ∀ r, s.restore = some r →
    (∃ i ∈ past, i.1.isLoadOrError = true ∧ i.2.map = some r.map)
      ∨ (r.map = m0 ∧ r.changes = viewChanges past ∧ viewChanges past ≤ 1)

/-- The actions the epic emits while it handles `post`, after it has handled `mid`. -/
def emittedAfter (c : Collaborators) (s : ZoomEpic) (mid post : List (Action × StoreState)) :
    List Action :=
  (runZoomEpic c s (mid ++ post)).emitted.drop (runZoomEpic c s mid).emitted.length

/-- The action has type `CLOSE_IDENTIFY`. -/
def Action.isCloseIdentify : Action → Bool
  | .closeIdentify => true
  | _ => false

/-- The action is a `zoomToPoint`, which the epic emits only when it issues a recenter. -/
def Action.isZoomToPoint : Action → Bool
  | .zoomToPoint _ _ _ => true
  | _ => false

/-- The number of `changeMapView` actions in a list of emitted actions. -/
def restoreCount (out : List Action) : Nat :=
  (out.filter Action.isChangeMapView).length

/-- The store dispatches every action an epic emits, and a dispatched action arrives on
`action$` (this is how the `loadFeatureInfo` of the click epic reaches this epic). A trace is
fed back when each `changeMapView` the epic emits is followed in the trace by a
`CHANGE_MAP_VIEW` action, the emitted action itself; the test looks at the type of the next
action only, which is all the epic reads, and a trace may end before that action. -/
def fedBack (c : Collaborators) : ZoomEpic → List (Action × StoreState) → Bool
  | _, [] => true
  | s, (a, state) :: rest =>
    match zoomToVisibleAreaEpic c s a state with
    | .error _ => true
    | .ok (s1, out) =>
      (!out.any Action.isChangeMapView
        || match rest with
           | [] => true
           | (b, _) :: _ => b.isChangeMapView)
        && fedBack c s1 rest

/-- The number of times an armed restore can still fire on a fed-back trace: it is completed
by the second `CHANGE_MAP_VIEW` it receives. -/
def restoresLeft (s : ZoomEpic) : Nat :=
  match s.restore with
  | none => 0
  | some r => 2 - r.changes

/-- The armed restore, if any, is the one of the map `m0` and has not yet received two
`CHANGE_MAP_VIEW` actions. -/
def ArmedFor (m0 : MapState) (s : ZoomEpic) : Prop :=
  ∀ r, s.restore = some r → r.map = m0 ∧ r.changes ≤ 1

/-- A trace that tears no restore down by other means than `CHANGE_MAP_VIEW`: it has no
`LOAD_FEATURE_INFO` or `ERROR_FEATURE_INFO` action, and no `FEATURE_INFO_CLICK` that arrives
while `centerToMarkerSelector` is on. -/
def Quiet (xs : List (Action × StoreState)) : Prop :=
  ∀ i ∈ xs, i.1.isLoadOrError = false ∧ (i.1.isClick = true → i.2.centerToMarker = false)

/-! ## Sample data -/

/-- A layer served by a WMS endpoint. -/
def roadsLayer : Layer := { name := "roads", config := .obj [("type", .str "wms")] }

/-- A second layer served by a WMS endpoint. -/
def parksLayer : Layer := { name := "parks", config := .obj [("type", .str "wms")] }

/-- A client-side vector layer, which has no endpoint. -/
def notesLayer : Layer := { name := "notes", config := .obj [("type", .str "vector")] }

/-- The horizontal pixel position of a coordinate, for the sample collaborators. -/
def sampleX : JSVal → Int
  | .obj fs =>
    match objGet fs "x" with
    | .num n => n
    | _ => 0
  | _ => 0

/-- Sample collaborators: a vector layer gets the empty url, any other layer a WMS endpoint
and a plain-text request; a coordinate is visible when it lies between the left inset and the
right inset of the map. -/
def sampleCollaborators : Collaborators where
  buildIdentifyRequest layer _ :=
    if strictEq (objGet (spreadOf layer.config) "type") (.str "vector") then
      { url := .str "", request := [("lat", .num 43), ("lng", .num 11)],
        metadata := [("title", .str layer.name)] }
    else
      { url := .str "/geoserver/wms",
        request := [("query_layers", .str layer.name), ("info_format", .str "text/plain")],
        metadata := [("title", .str layer.name)] }
  filterRequestParams _ _ _ := []
  parseURN v := v
  getCurrentResolution zoom _ _ _ := .num zoom
  parseLayoutValue v _ :=
    match v with
    | .num n => n
    | _ => 0
  reprojectBbox extent _ _ := extent
  isInsideVisibleArea coords map layoutBounds _ :=
    match map.size with
    | some size =>
      decide (layoutBounds.left ≤ sampleX coords)
        && decide (sampleX coords ≤ size.width - layoutBounds.right)
    | none => false
  isPointInsideExtent _ _ := true
  centerToVisibleArea coords map _ _ :=
    { pos := coords, zoom := .num map.zoom, crs := .str "EPSG:4326" }
  getBbox center zoom := .obj [("center", center), ("zoom", .num zoom)]

/-- A successful plain-text response. -/
def textResponse (body : String) : AxiosResponse :=
  { data := .str body, status := .num 200, statusText := .str "OK", headers := .obj [],
    config := .obj [], request := .obj [] }

/-- A sample network: the layer `parks` answers with a server error, a request for
`application/json` is not found, any other request gets a plain-text body. -/
def sampleTransport : Transport := fun _ param =>
  if strictEq (objGet param "query_layers") (.str "parks") then
    .error (.transport (.str "Internal error") (.str "Internal Server Error") (.num 500))
  else if strictEq (objGet param "info_format") (.str "application/json") then
    .error (.transport .undefined (.str "Not Found") (.num 404))
  else .ok (textResponse "no features were found")

/-- The sample network without the server error of the layer `parks`. -/
def healthyTransport : Transport := fun _ param =>
  if strictEq (objGet param "info_format") (.str "application/json") then
    .error (.transport .undefined (.str "Not Found") (.num 404))
  else .ok (textResponse "no features were found")

/-- A network on which every request succeeds with the JSON body `null`. -/
def nullBodyTransport : Transport := fun _ _ =>
  .ok { data := .null, status := .num 200, statusText := .str "OK", headers := .obj [],
        config := .obj [], request := .obj [] }

/-- A sample map: 800 by 600 pixels at zoom 5. -/
def sampleMap : MapState :=
  { center := .obj [("x", .num 11), ("y", .num 43)], zoom := 5,
    size := some { width := 800, height := 600 }, projection := .str "EPSG:3857" }

/-- A sample store: three queryable layers, none selected, highlight off, recentring on, a
panel covering the 300 rightmost pixels. -/
def sampleState : StoreState :=
  { queryableLayers := [roadsLayer, parksLayer, notesLayer], queryableSelectedLayers := [],
    identifyOptions := .obj [], itemId := .undefined, overrideParams := none,
    isHighlightEnabled := false, centerToMarker := true, map := some sampleMap,
    projection := "EPSG:3857", projectionDefs := [],
    boundingMapRect := some { left := .num 0, bottom := .num 0, right := .num 300, top := .num 0 },
    isMouseMoveIdentifyActive := false }

/-- The sample store with the highlight on, so that the executor attaches the geometry. -/
def highlightState : StoreState := { sampleState with isHighlightEnabled := true }

/-- The sample store without any queryable layer. -/
def emptyState : StoreState := { sampleState with queryableLayers := [] }

/-- The sample store with a selected queryable subset, the layer `parks` alone. -/
def selectedState : StoreState := { sampleState with queryableSelectedLayers := [parksLayer] }

/-- The sample store before the map is loaded: `mapSelector` returns `null`. -/
def noMapState : StoreState := { sampleState with map := none }

/-- A world in which the store does not change while a click is handled. -/
def worldOf (state : StoreState) (axiosGet : Transport) : World :=
  { state := state, layerState := fun _ => state, axiosGet := axiosGet }

/-- A point with the given pixel position, modifiers and multi-selection flag. -/
def pointAt (x : Int) (modifiers multiSelection : JSVal) : Point :=
  { latlng := .obj [("x", .num x), ("y", .num 300)], cartographic := .undefined,
    modifiers := modifiers, multiSelection := multiSelection }

/-- A click on a point, without name filter and overrides. -/
def clickOn (p : Point) : ClickPayload :=
  { point := some p, layer := .undefined, filterNameList := none, overrideParams := none,
    itemId := .undefined }

/-- A plain click hidden by the panel on the right (pixel 700 of 800). -/
def plainClick : ClickPayload := clickOn (pointAt 700 .undefined .undefined)

/-- A click with a name filter: one entry contains the name `roads`, one the name `notes`. -/
def filteredClick : ClickPayload :=
  { plainClick with filterNameList := some ["topp:roads", "my notes layer"] }

/-- The epic `getFeatureInfoOnFeatureInfoClick` before any action. -/
def ClickEpic.initial : ClickEpic := { nextId := 0, inflight := [] }

/-- The epic `zoomToVisibleAreaEpic` before any action. -/
def ZoomEpic.initial : ZoomEpic := { click := none, restore := none }

/-- A `LOAD_FEATURE_INFO` action for the layer `roads`. -/
def sampleLoaded : Action := .loadFeatureInfo 0 (.str "no features were found") [] [] roadsLayer

/-- A `CHANGE_MAP_VIEW` action reporting the sample map. -/
def sampleViewChange : Action :=
  .changeMapView sampleMap.center sampleMap.zoom .undefined sampleMap.size .undefined
    sampleMap.projection

/-! ## Traces of `getFeatureInfoOnFeatureInfoClick` -/

/-- The input "the interaction event `click` arrives while the world is `w`". -/
def clickInput (click : ClickPayload) (w : World) : ClickInput :=
  .action (.featureInfoClick click) w

/-- The state of the epic after a sequence of inputs. -/
def ClickEpic.after (c : Collaborators) (s : ClickEpic) (inputs : List ClickInput) : ClickEpic :=
  (runClickEpic c s inputs).1

/-- The actions the epic emits on a sequence of inputs. -/
def ClickEpic.emits (c : Collaborators) (s : ClickEpic) (inputs : List ClickInput) : List Action :=
  (runClickEpic c s inputs).2

/-- The inputs that arrive before the next interaction event. -/
def untilNextClick (inputs : List ClickInput) : List ClickInput :=
  inputs.takeWhile (fun i => !i.isClick)

/-- The requests the executor sends for the parameters `param`: the primary one and the one
that forces the format `application/json`. -/
def requestsOf (param : JSObj) : List JSObj :=
  [param, objSet param "info_format" (.str "application/json")]

/-- The rule of the specification for the name filter: with an empty filter list every layer
passes; otherwise a layer passes when its name occurs as a contiguous part of one entry of
the list. -/
def NameMatches (filterNameList : List String) (l : Layer) : Prop :=
  filterNameList = [] ∨ ∃ name ∈ filterNameList, l.name.data <:+: name.data

/-! ## Sample traces of the whole application -/

/-- The two actions of the sample recenter, as they come back on `action$`. -/
def recenterEcho : List (Action × StoreState) :=
  [(.updateCenterToMarker "enabled", sampleState),
    (.zoomToPoint (.obj [("x", .num 700), ("y", .num 300)]) (.num 5) (.str "EPSG:4326"),
      sampleState)]

/-- A `CLOSE_IDENTIFY` followed by the restore of the sample map as it comes back on
`action$`. -/
def closeAndEcho : List (Action × StoreState) :=
  [(.closeIdentify, sampleState), (restoreAction sampleCollaborators sampleMap, sampleState)]

/-- A trace of the whole application: the sample click, its loaded event, the recenter that
comes back, and two `CLOSE_IDENTIFY` actions, each followed by the restore that comes
back. -/
def fedBackTrace : List (Action × StoreState) :=
  [(.featureInfoClick plainClick, sampleState), (sampleLoaded, sampleState)]
    ++ recenterEcho ++ closeAndEcho ++ closeAndEcho

/-- After the sample recenter: its two actions come back and the map reports the change of
view the `zoomToPoint` causes. -/
def reportedFirst : List (Action × StoreState) :=
  recenterEcho ++ [(sampleViewChange, sampleState)]

/-- Two `CLOSE_IDENTIFY` actions, the first followed by the restore that comes back. -/
def twoCloses : List (Action × StoreState) :=
  closeAndEcho ++ [(.closeIdentify, sampleState)]

/-! ## The pinned item -/

/-- The property read `f.id` on a feature that is neither `null` nor `undefined`. -/
def idOf : JSVal → JSVal
  | .obj fields => objGet fields "id"
  | _ => .undefined

/-- The rule of the specification for the pinned item: when a pinned id is present (neither
`null` nor `undefined`), exactly the features whose id equals it, in their original order;
when none is present, all features unchanged. -/
def pinnedFilter (itemId : JSVal) (fs : List JSVal) : List JSVal :=
  if isNil itemId then fs else fs.filter (fun f => strictEq (idOf f) itemId)

/-- A GeoJSON feature with the given id. -/
def featureWithId (i : JSVal) : JSVal := .obj [("type", .str "Feature"), ("id", i)]

/-- A GeoJSON payload with two features, whose ids are the numbers 0 and 1. -/
def zeroAndOne : JSObj :=
  [("type", .str "FeatureCollection"),
    ("features", .arr [featureWithId (.num 0), featureWithId (.num 1)])]

/-- A response of the HTTP client that carries only a payload. -/
def responseOf (data : JSVal) : AxiosResponse :=
  { data := data, status := .num 200, statusText := .str "OK", headers := .obj [],
    config := .obj [], request := .obj [] }

/-! ## The per-layer observable -/

theorem terminalEvent_isTerminal (reqId : Nat) (rp md : JSObj) (layer : Layer)
    (outcome : Except Fault FeatureInfoResponse) :
    (terminalEvent reqId rp md layer outcome).isTerminal = true
      ∧ (terminalEvent reqId rp md layer outcome).requestId = some reqId := by
  unfold terminalEvent
  cases outcome with
  | error e => simp [catchFault, Action.isTerminal, Action.requestId]
  | ok response =>
    simp only [mapResponse]
    cases getField response.data "exceptions" with
    | error e => simp [catchFault, Action.isTerminal, Action.requestId]
    | ok ex =>
      by_cases h : truthy ex = true <;> simp [h, Action.isTerminal, Action.requestId]

theorem projectLayer_direct (c : Collaborators) (axiosGet : Transport) (state : StoreState)
    (overrideParams : List (String × JSObj)) (reqId : Nat) (layer : Layer)
    (hurl : truthy (c.buildIdentifyRequest layer state.identifyOptions).url = true) :
    projectLayer c axiosGet state overrideParams reqId layer =
      .direct (.newMapInfoRequest reqId (layerParam c state overrideParams layer))
        { reqId := reqId, requestParams := layerRequest c state overrideParams layer,
          lMetaData := (c.buildIdentifyRequest layer state.identifyOptions).metadata,
          layer := layer, outcome := layerOutcome c axiosGet state overrideParams layer } := by
  simp [projectLayer, hurl, layerParam, layerRequest, layerOutcome]


/-- C1 (correlation integrity). For a layer that resolves to a direct endpoint (`if (url)`: the
url is truthy), whatever the HTTP client answers, the observable of the layer emits exactly
two events: the started event `newMapInfoRequest(reqId, param)` and then one terminal event.
Whatever the outcome of the executor (a result without exceptions, a result with
exceptions, a fault), the terminal event is a loaded, exceptions or errored event and carries
`reqId`, the one id generated for the layer before the executor is invoked. -/
theorem correlation_integrity (c : Collaborators) (axiosGet : Transport) (state : StoreState)
    (overrideParams : List (String × JSObj)) (reqId : Nat) (layer : Layer)
    (hurl : truthy (c.buildIdentifyRequest layer state.identifyOptions).url = true) :
    (projectLayer c axiosGet state overrideParams reqId layer).events
        = [.newMapInfoRequest reqId (layerParam c state overrideParams layer),
            layerTerminal c axiosGet state overrideParams reqId layer]
      ∧ (layerTerminal c axiosGet state overrideParams reqId layer).isTerminal = true
      ∧ (layerTerminal c axiosGet state overrideParams reqId layer).requestId = some reqId
      ∧ (∀ outcome : Except Fault FeatureInfoResponse,
          (terminalEvent reqId (layerRequest c state overrideParams layer)
              (c.buildIdentifyRequest layer state.identifyOptions).metadata layer
              outcome).isTerminal = true
            ∧ (terminalEvent reqId (layerRequest c state overrideParams layer)
              (c.buildIdentifyRequest layer state.identifyOptions).metadata layer
              outcome).requestId = some reqId)
      ∧ (projectLayer c axiosGet state overrideParams reqId layer).pending.map Pending.reqId
        = [reqId] := by
  rw [projectLayer_direct c axiosGet state overrideParams reqId layer hurl]
  exact ⟨rfl, (terminalEvent_isTerminal _ _ _ _ _).1, (terminalEvent_isTerminal _ _ _ _ _).2,
    fun outcome => terminalEvent_isTerminal _ _ _ _ outcome, rfl⟩

/-- Witness of C1: the layer `parks`, whose request the sample network answers with a server
error, given the id 7. -/
theorem correlation_integrity_witness :
    truthy (sampleCollaborators.buildIdentifyRequest parksLayer sampleState.identifyOptions).url
        = true
      ∧ (projectLayer sampleCollaborators sampleTransport sampleState [] 7 parksLayer).events
        = [.newMapInfoRequest 7
              [("query_layers", .str "parks"), ("info_format", .str "text/plain")],
            .errorFeatureInfo 7 (.str "Internal error")
              [("query_layers", .str "parks"), ("info_format", .str "text/plain")]
              [("title", .str "parks")]] :=
  ⟨rfl, (correlation_integrity sampleCollaborators sampleTransport sampleState [] 7 parksLayer
    rfl).1⟩

/-! ## The fan-out and the traces of the click epic -/

theorem projectLayer_cases (c : Collaborators) (axiosGet : Transport) (state : StoreState)
    (ov : List (String × JSObj)) (reqId : Nat) (layer : Layer) :
    (∃ param q, projectLayer c axiosGet state ov reqId layer
        = .direct (.newMapInfoRequest reqId param) q ∧ q.reqId = reqId)
      ∨ (∃ request metadata, projectLayer c axiosGet state ov reqId layer
        = .vector (.getVectorInfo layer request metadata)) := by
  unfold projectLayer
  by_cases h : truthy (c.buildIdentifyRequest layer state.identifyOptions).url = true
  · left
    simp only [h, if_true]
    exact ⟨_, _, rfl, rfl⟩
  · right
    simp only [h]
    exact ⟨_, _, rfl⟩

theorem fanOut_pending_ids (c : Collaborators) (w : World) (ov : List (String × JSObj))
    (ls : List Layer) (i n : Nat) :
    (pendingOf (fanOut c w ov ls i n)).map Pending.reqId
      = List.range' n (pendingOf (fanOut c w ov ls i n)).length := by
  induction ls generalizing i n with
  | nil => simp [fanOut, pendingOf]
  | cons l ls ih =>
    simp only [fanOut, pendingOf, List.flatMap_cons, List.map_append, List.length_append]
    have ih' := ih (i + 1) (n + (projectLayer c w.axiosGet (w.layerState i) ov n l).pending.length)
    simp only [pendingOf] at ih'
    rw [ih']
    rcases projectLayer_cases c w.axiosGet (w.layerState i) ov n l with ⟨p, q, h, hq⟩ | ⟨r, m, h⟩
    · simp only [h, LayerFlow.pending, List.map_cons, List.map_nil, List.length_cons,
        List.length_nil, List.singleton_append, hq, Nat.zero_add]
      rw [Nat.add_comm 1, List.range'_succ]
    · simp only [h, LayerFlow.pending, List.map_nil, List.length_nil, List.nil_append,
        Nat.zero_add, Nat.add_zero]

theorem fanOut_immediate_ids (c : Collaborators) (w : World) (ov : List (String × JSObj))
    (ls : List Layer) (i n : Nat) :
    ∀ e ∈ (fanOut c w ov ls i n).map LayerFlow.immediate, ∀ id, e.requestId = some id →
      n ≤ id ∧ id < n + (pendingOf (fanOut c w ov ls i n)).length := by
  induction ls generalizing i n with
  | nil => simp [fanOut]
  | cons l ls ih =>
    intro e he id hid
    simp only [fanOut, List.map_cons, List.mem_cons] at he
    simp only [fanOut, pendingOf, List.flatMap_cons, List.length_append]
    have ih' := ih (i + 1) (n + (projectLayer c w.axiosGet (w.layerState i) ov n l).pending.length)
    simp only [pendingOf] at ih'
    rcases he with he | he
    · rcases projectLayer_cases c w.axiosGet (w.layerState i) ov n l with ⟨p, q, h, hq⟩ | ⟨r, m, h⟩
      · rw [h] at he
        simp only [LayerFlow.immediate] at he
        subst he
        simp only [Action.requestId, Option.some.injEq] at hid
        subst hid
        simp [h, LayerFlow.pending]
      · rw [h] at he
        simp only [LayerFlow.immediate] at he
        subst he
        simp [Action.requestId] at hid
    · have := ih' e he id hid
      omega

theorem Pending.terminal_requestId (p : Pending) :
    p.terminal.isTerminal = true ∧ p.terminal.requestId = some p.reqId :=
  terminalEvent_isTerminal _ _ _ _ _

theorem onFeatureInfoClick_pending_ids (c : Collaborators) (w : World) (n : Nat)
    (click : ClickPayload) :
    (onFeatureInfoClick c w n click).pending.map Pending.reqId
      = List.range' n (onFeatureInfoClick c w n click).pending.length := by
  unfold onFeatureInfoClick
  split
  · simp
  · split <;> exact fanOut_pending_ids _ _ _ _ _ _

theorem onFeatureInfoClick_pending_ge (c : Collaborators) (w : World) (n : Nat)
    (click : ClickPayload) :
    ∀ p ∈ (onFeatureInfoClick c w n click).pending, n ≤ p.reqId := by
  intro p hp
  have hmem : p.reqId ∈ (onFeatureInfoClick c w n click).pending.map Pending.reqId :=
    List.mem_map_of_mem _ hp
  rw [onFeatureInfoClick_pending_ids] at hmem
  exact (List.mem_range'_1.mp hmem).1

theorem onFeatureInfoClick_emitted_ge (c : Collaborators) (w : World) (n : Nat)
    (click : ClickPayload) :
    ∀ e ∈ (onFeatureInfoClick c w n click).emitted, ∀ id, e.requestId = some id → n ≤ id := by
  intro e he id hid
  unfold onFeatureInfoClick at he
  split at he
  · simp only [List.mem_cons, List.mem_singleton, List.not_mem_nil, or_false] at he
    rcases he with he | he <;> subst he <;> simp [Action.requestId] at hid
  · split at he
    · exact (fanOut_immediate_ids _ _ _ _ _ _ e he id hid).1
    · simp only [List.mem_cons] at he
      rcases he with he | he
      · subst he; simp [Action.requestId] at hid
      · exact (fanOut_immediate_ids _ _ _ _ _ _ e he id hid).1

theorem step_nextId_le (c : Collaborators) (s : ClickEpic) (i : ClickInput) :
    s.nextId ≤ (getFeatureInfoOnFeatureInfoClick c s i).1.nextId := by
  unfold getFeatureInfoOnFeatureInfoClick
  split
  · simp
  · simp
  · split <;> simp

theorem run_nextId_le (c : Collaborators) (rest : List ClickInput) :
    ∀ s : ClickEpic, s.nextId ≤ (runClickEpic c s rest).1.nextId := by
  induction rest with
  | nil => intro s; simp [runClickEpic]
  | cons i rest ih =>
    intro s
    simp only [runClickEpic]
    exact Nat.le_trans (step_nextId_le c s i) (ih _)

theorem run_append (c : Collaborators) (xs ys : List ClickInput) :
    ∀ s : ClickEpic, runClickEpic c s (xs ++ ys)
      = ((runClickEpic c (runClickEpic c s xs).1 ys).1,
          (runClickEpic c s xs).2 ++ (runClickEpic c (runClickEpic c s xs).1 ys).2) := by
  induction xs with
  | nil => intro s; simp [runClickEpic]
  | cons i xs ih =>
    intro s
    have h := ih (getFeatureInfoOnFeatureInfoClick c s i).1
    rw [List.cons_append]
    simp only [runClickEpic]
    rw [h]
    simp only [List.append_assoc]

/-- The outputs of one step carry ids at least `n`, and the bound is kept, when the ids
of the state are at least `n`. -/
theorem step_ids_ge (c : Collaborators) (n : Nat) (s : ClickEpic) (i : ClickInput)
    (hn : n ≤ s.nextId) (hin : ∀ p ∈ s.inflight, n ≤ p.reqId) :
    (∀ e ∈ (getFeatureInfoOnFeatureInfoClick c s i).2, ∀ id, e.requestId = some id → n ≤ id)
      ∧ (∀ p ∈ (getFeatureInfoOnFeatureInfoClick c s i).1.inflight, n ≤ p.reqId) := by
  unfold getFeatureInfoOnFeatureInfoClick
  split
  · rename_i click w
    refine ⟨fun e he id hid => ?_, fun p hp => ?_⟩
    · exact Nat.le_trans hn (onFeatureInfoClick_emitted_ge c w s.nextId click e he id hid)
    · exact Nat.le_trans hn (onFeatureInfoClick_pending_ge c w s.nextId click p hp)
  · exact ⟨by simp, hin⟩
  · rename_i reqId
    split
    · rename_i p hfind
      have hp : p ∈ s.inflight := List.mem_of_find?_eq_some hfind
      refine ⟨fun e he id hid => ?_, fun q hq => ?_⟩
      · simp only [List.mem_singleton] at he
        subst he
        rw [(Pending.terminal_requestId p).2] at hid
        simp only [Option.some.injEq] at hid
        subst hid
        exact hin p hp
      · exact hin q (List.mem_of_mem_filter hq)
    · exact ⟨by simp, hin⟩

theorem run_ids_ge (c : Collaborators) (n : Nat) (rest : List ClickInput) :
    ∀ s : ClickEpic, n ≤ s.nextId → (∀ p ∈ s.inflight, n ≤ p.reqId) →
      ∀ e ∈ (runClickEpic c s rest).2, ∀ id, e.requestId = some id → n ≤ id := by
  induction rest with
  | nil => intro s _ _ e he; simp [runClickEpic] at he
  | cons i rest ih =>
    intro s hn hin e he id hid
    simp only [runClickEpic, List.mem_append] at he
    have hstep := step_ids_ge c n s i hn hin
    rcases he with he | he
    · exact hstep.1 e he id hid
    · exact ih _ (Nat.le_trans hn (step_nextId_le c s i)) hstep.2 e he id hid

theorem run_noClick_terminal (c : Collaborators) (rest : List ClickInput) :
    ∀ s : ClickEpic, (∀ i ∈ rest, i.isClick = false) →
      ∀ e ∈ (runClickEpic c s rest).2, ∃ p ∈ s.inflight, e = p.terminal := by
  induction rest with
  | nil => intro s _ e he; simp [runClickEpic] at he
  | cons i rest ih =>
    intro s hno e he
    simp only [runClickEpic, List.mem_append] at he
    have hi : i.isClick = false := hno i (List.mem_cons_self _ _)
    have hrest : ∀ j ∈ rest, j.isClick = false := fun j hj => hno j (List.mem_cons_of_mem _ hj)
    cases i with
    | action a w =>
      cases a <;> first
        | (simp [ClickInput.isClick, Action.isClick] at hi; done)
        | (simp only [getFeatureInfoOnFeatureInfoClick, List.not_mem_nil, false_or] at he
           exact ih s hrest e he)
    | settled reqId =>
      simp only [getFeatureInfoOnFeatureInfoClick] at he
      split at he
      · rename_i p hfind
        rcases he with he | he
        · simp only [List.mem_singleton] at he
          exact ⟨p, List.mem_of_find?_eq_some hfind, he⟩
        · obtain ⟨q, hq, hqe⟩ := ih _ hrest e he
          exact ⟨q, List.mem_of_mem_filter hq, hqe⟩
      · rcases he with he | he
        · simp at he
        · exact ih s hrest e he

theorem mem_untilNextClick {i : ClickInput} {inputs : List ClickInput}
    (h : i ∈ untilNextClick inputs) : i.isClick = false := by
  have := List.mem_takeWhile_imp h
  simpa using this

theorem after_append (c : Collaborators) (s : ClickEpic) (xs ys : List ClickInput) :
    ClickEpic.after c s (xs ++ ys) = ClickEpic.after c (ClickEpic.after c s xs) ys := by
  simp [ClickEpic.after, run_append]

theorem after_click (c : Collaborators) (s : ClickEpic) (click : ClickPayload) (w : World) :
    ClickEpic.after c s [clickInput click w]
      = { nextId := s.nextId + (onFeatureInfoClick c w s.nextId click).pending.length,
          inflight := (onFeatureInfoClick c w s.nextId click).pending } := by
  simp [ClickEpic.after, runClickEpic, clickInput, getFeatureInfoOnFeatureInfoClick]

theorem emits_click_ids_ge (c : Collaborators) (s : ClickEpic) (click : ClickPayload) (w : World)
    (post : List ClickInput) :
    ∀ e ∈ ClickEpic.emits c s (clickInput click w :: post), ∀ id, e.requestId = some id →
      s.nextId ≤ id := by
  intro e he id hid
  simp only [ClickEpic.emits, runClickEpic, List.mem_append] at he
  have hstate : (getFeatureInfoOnFeatureInfoClick c s (clickInput click w)).1
      = { nextId := s.nextId + (onFeatureInfoClick c w s.nextId click).pending.length,
          inflight := (onFeatureInfoClick c w s.nextId click).pending } := rfl
  rcases he with he | he
  · exact onFeatureInfoClick_emitted_ge c w s.nextId click e he id hid
  · refine run_ids_ge c s.nextId post _ ?_ ?_ e he id hid
    · rw [hstate]; exact Nat.le_add_right _ _
    · rw [hstate]; exact onFeatureInfoClick_pending_ge c w s.nextId click

/-- C2 (cancellation, latest interaction wins). Take any trace in which the interaction event
A arrives and later the interaction event B. No event emitted from the arrival of B on, by
B or by anything after it, carries the request id of one of the queries of A: no started,
loaded, exceptions or errored event of A is emitted any more. The events emitted on the
arrival of B are those of the handler of B, and every event emitted after that and before
the next interaction event is the terminal event of one of the queries of B. -/
theorem cancellation (c : Collaborators) (s0 : ClickEpic) (preA : List ClickInput)
    (a : ClickPayload) (wA : World) (mid : List ClickInput) (b : ClickPayload) (wB : World)
    (post : List ClickInput) :
    (∀ e ∈ ClickEpic.emits c (ClickEpic.after c s0 (preA ++ clickInput a wA :: mid))
          (clickInput b wB :: post),
        ∀ p ∈ (ClickEpic.after c s0 (preA ++ [clickInput a wA])).inflight,
          e.requestId ≠ some p.reqId)
      ∧ ClickEpic.emits c (ClickEpic.after c s0 (preA ++ clickInput a wA :: mid))
          [clickInput b wB]
        = (onFeatureInfoClick c wB
            (ClickEpic.after c s0 (preA ++ clickInput a wA :: mid)).nextId b).emitted
      ∧ (∀ e ∈ ClickEpic.emits c
            (ClickEpic.after c s0 (preA ++ clickInput a wA :: mid ++ [clickInput b wB]))
            (untilNextClick post),
          ∃ q ∈ (ClickEpic.after c s0
              (preA ++ clickInput a wA :: mid ++ [clickInput b wB])).inflight,
            e = q.terminal) := by
  refine ⟨?_, ?_, ?_⟩
  · intro e he p hp heq
    have hsplit : preA ++ clickInput a wA :: mid = (preA ++ [clickInput a wA]) ++ mid := by simp
    rw [hsplit, after_append] at he
    have hge := emits_click_ids_ge c _ b wB post e he p.reqId heq
    have hmono : (ClickEpic.after c s0 (preA ++ [clickInput a wA])).nextId
        ≤ (ClickEpic.after c (ClickEpic.after c s0 (preA ++ [clickInput a wA])) mid).nextId :=
      run_nextId_le c mid _
    rw [after_append, after_click] at hp hmono
    simp only at hp hmono
    have hmem : p.reqId ∈ (onFeatureInfoClick c wA (ClickEpic.after c s0 preA).nextId
        a).pending.map Pending.reqId := List.mem_map_of_mem _ hp
    rw [onFeatureInfoClick_pending_ids] at hmem
    have hlt := (List.mem_range'_1.mp hmem).2
    rw [after_append, after_click] at hge
    omega
  · simp [ClickEpic.emits, runClickEpic, clickInput, getFeatureInfoOnFeatureInfoClick]
  · intro e he
    exact run_noClick_terminal c _ _ (fun i hi => mem_untilNextClick hi) e he

/-- An example of C2 on the sample store: a second click arrives while the two queries of the
first are pending; the response for the query 0 of the first click is dropped, the query 2 of
the second click emits its loaded event. -/
theorem superseded_response_is_dropped :
    ClickEpic.emits sampleCollaborators
        (ClickEpic.after sampleCollaborators ClickEpic.initial
          [clickInput plainClick (worldOf sampleState sampleTransport)])
        [clickInput plainClick (worldOf sampleState sampleTransport), .settled 0, .settled 2]
      = [.purgeMapInfoResults,
          .newMapInfoRequest 2 [("query_layers", .str "roads"), ("info_format", .str "text/plain")],
          .newMapInfoRequest 3 [("query_layers", .str "parks"), ("info_format", .str "text/plain")],
          .getVectorInfo notesLayer [("lat", .num 43), ("lng", .num 11)]
            [("title", .str "notes")],
          .loadFeatureInfo 2 (.str "no features were found")
            [("query_layers", .str "roads"), ("info_format", .str "text/plain")]
            [("title", .str "roads"), ("features", .undefined), ("featuresCrs", .undefined)]
            roadsLayer] :=
  rfl

/-! ## Isolation of the layers of a fan-out -/

theorem getFeatureInfo_congr (g1 g2 : Transport) (parseURN : JSVal → JSVal) (basePath : JSVal)
    (param : JSObj) (attachJSON : Bool) (itemId : JSVal)
    (h : ∀ p ∈ requestsOf param, g1 basePath p = g2 basePath p) :
    getFeatureInfo g1 parseURN basePath param attachJSON itemId
      = getFeatureInfo g2 parseURN basePath param attachJSON itemId := by
  have h1 : g1 basePath param = g2 basePath param := h _ (by simp [requestsOf])
  have h2 : g1 basePath (objSet param "info_format" (.str "application/json"))
      = g2 basePath (objSet param "info_format" (.str "application/json")) :=
    h _ (by simp [requestsOf])
  simp only [getFeatureInfo, secondaryFlow, h1, h2]

theorem projectLayer_congr (c : Collaborators) (g1 g2 : Transport) (state : StoreState)
    (ov : List (String × JSObj)) (reqId : Nat) (layer : Layer)
    (h : ∀ p ∈ requestsOf (layerParam c state ov layer),
      g1 (c.buildIdentifyRequest layer state.identifyOptions).url p
        = g2 (c.buildIdentifyRequest layer state.identifyOptions).url p) :
    projectLayer c g1 state ov reqId layer = projectLayer c g2 state ov reqId layer := by
  have hg := getFeatureInfo_congr g1 g2 c.parseURN
    (c.buildIdentifyRequest layer state.identifyOptions).url (layerParam c state ov layer)
    state.isHighlightEnabled state.itemId h
  simp only [layerParam, layerRequest] at hg
  simp only [projectLayer, hg]

theorem projectLayer_pending_length (c : Collaborators) (g1 g2 : Transport) (state : StoreState)
    (ov : List (String × JSObj)) (reqId : Nat) (layer : Layer) :
    (projectLayer c g1 state ov reqId layer).pending.length
      = (projectLayer c g2 state ov reqId layer).pending.length := by
  unfold projectLayer
  by_cases h : truthy (c.buildIdentifyRequest layer state.identifyOptions).url = true
  · simp [h, LayerFlow.pending]
  · simp [h, LayerFlow.pending]

/-- The flow at a position of the fan-out depends on the network only through the answers
to the requests sent to the endpoint of the layer at that position. -/
theorem fanOut_getElem_congr (c : Collaborators) (w : World) (g : Transport)
    (ov : List (String × JSObj)) (ls : List Layer) :
    ∀ (i n k : Nat) (l : Layer), ls[k]? = some l →
      (∀ p ∈ requestsOf (layerParam c (w.layerState (i + k)) ov l),
        g (c.buildIdentifyRequest l (w.layerState (i + k)).identifyOptions).url p
          = w.axiosGet (c.buildIdentifyRequest l (w.layerState (i + k)).identifyOptions).url p) →
      (fanOut c { w with axiosGet := g } ov ls i n)[k]? = (fanOut c w ov ls i n)[k]? := by
  induction ls with
  | nil => intro i n k l hk; simp at hk
  | cons x xs ih =>
    intro i n k l hk hagree
    cases k with
    | zero =>
      simp only [List.getElem?_cons_zero, Option.some.injEq] at hk
      subst hk
      simp only [fanOut, List.getElem?_cons_zero, Option.some.injEq]
      exact projectLayer_congr c g w.axiosGet _ ov n x hagree
    | succ k =>
      simp only [List.getElem?_cons_succ] at hk
      simp only [fanOut, List.getElem?_cons_succ]
      rw [projectLayer_pending_length c g w.axiosGet (w.layerState i) ov n x]
      refine ih (i + 1) _ k l hk ?_
      intro p hp
      rw [show i + 1 + k = i + (k + 1) by omega] at hp ⊢
      exact hagree p hp

theorem find_reqId_of_mem (l : List Pending) (hnodup : (l.map Pending.reqId).Nodup)
    (q : Pending) (hq : q ∈ l) : l.find? (fun p => p.reqId == q.reqId) = some q := by
  induction l with
  | nil => simp at hq
  | cons x xs ih =>
    simp only [List.map_cons, List.nodup_cons] at hnodup
    rcases List.mem_cons.mp hq with hqx | hqx
    · subst hqx; simp [List.find?]
    · have hne : x.reqId ≠ q.reqId := by
        intro heq
        exact hnodup.1 (heq ▸ List.mem_map_of_mem _ hqx)
      have hneg : ¬ (x.reqId == q.reqId) = true := by simpa using hne
      rw [List.find?_cons_of_neg (p := fun p : Pending => p.reqId == q.reqId) xs hneg]
      exact ih hnodup.2 hqx

theorem nodup_reqId_filter (l : List Pending) (f : Pending → Bool)
    (hnodup : (l.map Pending.reqId).Nodup) : ((l.filter f).map Pending.reqId).Nodup :=
  (List.Nodup.sublist ((List.filter_sublist l).map Pending.reqId) hnodup)

/-- Settling other queries leaves a pending query in flight, with the ids still distinct. -/
theorem after_settled_keeps (c : Collaborators) (q : Pending) (ids : List Nat)
    (hq : q.reqId ∉ ids) :
    ∀ s : ClickEpic, (s.inflight.map Pending.reqId).Nodup → q ∈ s.inflight →
      ((ClickEpic.after c s (ids.map ClickInput.settled)).inflight.map Pending.reqId).Nodup
        ∧ q ∈ (ClickEpic.after c s (ids.map ClickInput.settled)).inflight := by
  induction ids with
  | nil => intro s hn hm; exact ⟨hn, hm⟩
  | cons id ids ih =>
    intro s hn hm
    have hid : q.reqId ≠ id := fun h => hq (h ▸ List.mem_cons_self _ _)
    have hrest : q.reqId ∉ ids := fun h => hq (List.mem_cons_of_mem _ h)
    simp only [List.map_cons, ClickEpic.after, runClickEpic]
    cases hfind : s.inflight.find? (fun p => p.reqId == id) with
    | none =>
      have hstep : (getFeatureInfoOnFeatureInfoClick c s (.settled id)).1 = s := by
        simp [getFeatureInfoOnFeatureInfoClick, hfind]
      rw [hstep]
      exact ih hrest s hn hm
    | some p =>
      have hstep : (getFeatureInfoOnFeatureInfoClick c s (.settled id)).1
          = { s with inflight := s.inflight.filter (fun x => x.reqId != id) } := by
        simp [getFeatureInfoOnFeatureInfoClick, hfind]
      rw [hstep]
      refine ih hrest _ (nodup_reqId_filter _ _ hn) ?_
      simp only [List.mem_filter, bne_iff_ne, ne_eq]
      exact ⟨hm, hid⟩

theorem settled_emits_terminal (c : Collaborators) (s : ClickEpic) (q : Pending)
    (hn : (s.inflight.map Pending.reqId).Nodup) (hq : q ∈ s.inflight) :
    (getFeatureInfoOnFeatureInfoClick c s (.settled q.reqId)).2 = [q.terminal] := by
  simp [getFeatureInfoOnFeatureInfoClick, find_reqId_of_mem _ hn q hq]

theorem onFeatureInfoClick_pending_nodup (c : Collaborators) (w : World) (n : Nat)
    (click : ClickPayload) :
    ((onFeatureInfoClick c w n click).pending.map Pending.reqId).Nodup := by
  rw [onFeatureInfoClick_pending_ids]
  exact List.nodup_range' _ _

theorem run_settled_terminal (c : Collaborators) (ids : List Nat) :
    ∀ s : ClickEpic, ∀ e ∈ ClickEpic.emits c s (ids.map ClickInput.settled),
      ∃ p ∈ s.inflight, p.reqId ∈ ids ∧ e = p.terminal := by
  induction ids with
  | nil => intro s e he; simp [ClickEpic.emits, runClickEpic] at he
  | cons id ids ih =>
    intro s e he
    simp only [List.map_cons, ClickEpic.emits, runClickEpic, List.mem_append] at he
    cases hfind : s.inflight.find? (fun p => p.reqId == id) with
    | none =>
      have hstep : getFeatureInfoOnFeatureInfoClick c s (.settled id) = (s, []) := by
        simp [getFeatureInfoOnFeatureInfoClick, hfind]
      rw [hstep] at he
      rcases he with he | he
      · simp at he
      · obtain ⟨p, hp, hpid, hpe⟩ := ih s e he
        exact ⟨p, hp, List.mem_cons_of_mem _ hpid, hpe⟩
    | some p =>
      have hstep : getFeatureInfoOnFeatureInfoClick c s (.settled id)
          = ({ s with inflight := s.inflight.filter (fun x => x.reqId != id) },
              [p.terminal]) := by
        simp [getFeatureInfoOnFeatureInfoClick, hfind]
      rw [hstep] at he
      rcases he with he | he
      · simp only [List.mem_singleton] at he
        have hpid : p.reqId = id := by simpa using List.find?_some hfind
        exact ⟨p, List.mem_of_find?_eq_some hfind, hpid ▸ List.mem_cons_self _ _, he⟩
      · obtain ⟨r, hr, hrid, hre⟩ := ih _ e he
        exact ⟨r, List.mem_of_mem_filter hr, List.mem_cons_of_mem _ hrid, hre⟩

/-- C3 (failure isolation). In the fan-out of a click, (1) what the layer at a position does
(its started event with its request id, its query and so its terminal event with its
payload) stays the same when the network is replaced by one that answers the requests of
that layer alike and those of the other layers in any other way: a fault of a sibling
changes nothing of it; (2) for a query `q` of the fan-out, while other queries settle, with
a fault or not, each of them emits its own terminal event and nothing else, and `q`, when it
settles afterwards, still emits its terminal event. The epic has no error notification: the
step function is total. -/
theorem failure_isolation (c : Collaborators) (s : ClickEpic) (w : World) (click : ClickPayload) :
    (∀ (g : Transport) (k : Nat) (l : Layer), (retainedLayers w click)[k]? = some l →
        (∀ p ∈ requestsOf (layerParam c (w.layerState k) (click.overrideParams.getD []) l),
          g (c.buildIdentifyRequest l (w.layerState k).identifyOptions).url p
            = w.axiosGet (c.buildIdentifyRequest l (w.layerState k).identifyOptions).url p) →
        (clickFlows c { w with axiosGet := g } s.nextId click)[k]?
          = (clickFlows c w s.nextId click)[k]?)
      ∧ (∀ q ∈ (ClickEpic.after c s [clickInput click w]).inflight, ∀ ids : List Nat,
          q.reqId ∉ ids →
          (∀ e ∈ ClickEpic.emits c (ClickEpic.after c s [clickInput click w])
              (ids.map ClickInput.settled),
            ∃ p ∈ (ClickEpic.after c s [clickInput click w]).inflight,
              p.reqId ≠ q.reqId ∧ e = p.terminal)
          ∧ ClickEpic.emits c
              (ClickEpic.after c (ClickEpic.after c s [clickInput click w])
                (ids.map ClickInput.settled))
              [.settled q.reqId]
            = [q.terminal]) := by
  constructor
  · intro g k l hk hagree
    unfold clickFlows
    have hret : retainedLayers { w with axiosGet := g } click = retainedLayers w click := rfl
    rw [hret]
    refine fanOut_getElem_congr c w g _ _ 0 s.nextId k l hk ?_
    intro p hp
    rw [Nat.zero_add] at hp ⊢
    exact hagree p hp
  · intro q hq ids hids
    have hnodup : ((ClickEpic.after c s [clickInput click w]).inflight.map Pending.reqId).Nodup := by
      rw [after_click]
      exact onFeatureInfoClick_pending_nodup c w s.nextId click
    constructor
    · intro e he
      obtain ⟨p, hp, hpid, hpe⟩ := run_settled_terminal c ids _ e he
      refine ⟨p, hp, ?_, hpe⟩
      intro heq
      exact hids (heq ▸ hpid)
    · have hkeep := after_settled_keeps c q ids hids _ hnodup hq
      simp only [ClickEpic.emits, runClickEpic, List.append_nil]
      exact settled_emits_terminal c _ q hkeep.1 hkeep.2

/-- Witness of C3: the layers `roads` and `parks`; the request of `parks` fails on the sample
network and succeeds on the healthy one, and `roads` does the same on both. On the sample
network `parks` settles first, with its errored event, and `roads` then emits its loaded
event. -/
theorem failure_isolation_witness :
    (clickFlows sampleCollaborators (worldOf sampleState healthyTransport) 0 plainClick)[0]?
        = (clickFlows sampleCollaborators (worldOf sampleState sampleTransport) 0 plainClick)[0]?
      ∧ ClickEpic.emits sampleCollaborators
          (ClickEpic.after sampleCollaborators ClickEpic.initial
            [clickInput plainClick (worldOf sampleState sampleTransport)])
          [.settled 1, .settled 0]
        = [.errorFeatureInfo 1 (.str "Internal error")
              [("query_layers", .str "parks"), ("info_format", .str "text/plain")]
              [("title", .str "parks")],
            .loadFeatureInfo 0 (.str "no features were found")
              [("query_layers", .str "roads"), ("info_format", .str "text/plain")]
              [("title", .str "roads"), ("features", .undefined), ("featuresCrs", .undefined)]
              roadsLayer] :=
  ⟨(failure_isolation sampleCollaborators ClickEpic.initial (worldOf sampleState sampleTransport)
      plainClick).1 healthyTransport 0 roadsLayer rfl (by
        intro p hp
        simp only [requestsOf, List.mem_cons, List.mem_singleton, List.not_mem_nil,
          or_false] at hp
        rcases hp with hp | hp <;> subst hp <;> rfl),
    rfl⟩

/-! ## The empty layer set -/

theorem emits_nil_of_no_inflight (c : Collaborators) (s : ClickEpic) (hs : s.inflight = [])
    (rest : List ClickInput) : ClickEpic.emits c s (untilNextClick rest) = [] := by
  apply List.eq_nil_iff_forall_not_mem.mpr
  intro e he
  obtain ⟨p, hp, _⟩ :=
    run_noClick_terminal c _ s (fun i hi => mem_untilNextClick hi) e he
  rw [hs] at hp
  simp at hp

theorem fanOut_immediate_not_empty_notice (c : Collaborators) (w : World)
    (ov : List (String × JSObj)) (ls : List Layer) (i n : Nat) :
    ∀ e ∈ (fanOut c w ov ls i n).map LayerFlow.immediate, e ≠ .noQueryableLayers := by
  induction ls generalizing i n with
  | nil => simp [fanOut]
  | cons l ls ih =>
    intro e he
    simp only [fanOut, List.map_cons, List.mem_cons] at he
    rcases he with he | he
    · rcases projectLayer_cases c w.axiosGet (w.layerState i) ov n l with ⟨p, q, h, _⟩ | ⟨r, m, h⟩
      · rw [h] at he
        subst he
        simp [LayerFlow.immediate]
      · rw [h] at he
        subst he
        simp [LayerFlow.immediate]
    · exact ih _ _ e he

/-- C4 (empty layer set). For every store, the resolved layer set is `queryableSelectedLayers`
when that list is not empty and `queryableLayers` otherwise. When the resolved set is empty,
the click, whatever its point, name filter and overrides, emits exactly
`purgeMapInfoResults()` and then `noQueryableLayers()`; no request id is generated and no
executor is invoked (no query is left in flight), so that nothing more is emitted before the
next interaction event. When the resolved set is not empty, the click does not emit
`noQueryableLayers()`. -/
theorem empty_layer_set (c : Collaborators) (s : ClickEpic) (w : World) (click : ClickPayload)
    (rest : List ClickInput) :
    resolveLayers w.state
        = (if w.state.queryableSelectedLayers.isEmpty then w.state.queryableLayers
            else w.state.queryableSelectedLayers)
      ∧ (w.state.queryableSelectedLayers ≠ [] →
          resolveLayers w.state = w.state.queryableSelectedLayers)
      ∧ (w.state.queryableSelectedLayers = [] →
          resolveLayers w.state = w.state.queryableLayers)
      ∧ (resolveLayers w.state = [] →
          getFeatureInfoOnFeatureInfoClick c s (clickInput click w)
              = ({ nextId := s.nextId, inflight := [] },
                  [.purgeMapInfoResults, .noQueryableLayers])
            ∧ ClickEpic.emits c s (clickInput click w :: untilNextClick rest)
              = [.purgeMapInfoResults, .noQueryableLayers])
      ∧ (resolveLayers w.state ≠ [] →
          ∀ e ∈ (getFeatureInfoOnFeatureInfoClick c s (clickInput click w)).2,
            e ≠ .noQueryableLayers) := by
  refine ⟨?_, ?_, ?_, ?_, ?_⟩
  · unfold resolveLayers
    cases w.state.queryableSelectedLayers <;> simp
  · intro hsel
    unfold resolveLayers
    cases hq : w.state.queryableSelectedLayers with
    | nil => exact absurd hq hsel
    | cons x xs => simp
  · intro hsel
    unfold resolveLayers
    simp [hsel]
  · intro hempty
    have hstep : getFeatureInfoOnFeatureInfoClick c s (clickInput click w)
        = ({ nextId := s.nextId, inflight := [] },
            [.purgeMapInfoResults, .noQueryableLayers]) := by
      simp [getFeatureInfoOnFeatureInfoClick, clickInput, onFeatureInfoClick, hempty]
    refine ⟨hstep, ?_⟩
    have hnil := emits_nil_of_no_inflight c { nextId := s.nextId, inflight := [] } rfl rest
    simp only [ClickEpic.emits] at hnil
    simp only [ClickEpic.emits, runClickEpic, hstep, hnil, List.append_nil]
  · intro hne e he
    have hlen : ((resolveLayers w.state).length == 0) = false := by
      cases h : resolveLayers w.state with
      | nil => exact absurd h hne
      | cons x xs => simp
    by_cases hmulti : isMultiSelection click.point = true
    · simp only [clickInput, getFeatureInfoOnFeatureInfoClick, onFeatureInfoClick, hlen, hmulti,
        Bool.false_eq_true, if_false, if_true] at he
      exact fanOut_immediate_not_empty_notice _ _ _ _ _ _ e he
    · simp only [clickInput, getFeatureInfoOnFeatureInfoClick, onFeatureInfoClick, hlen, hmulti,
        Bool.false_eq_true, if_false, List.mem_cons] at he
      rcases he with he | he
      · rw [he]
        simp
      · exact fanOut_immediate_not_empty_notice _ _ _ _ _ _ e he

/-- Witness of C4: a store whose selected subset is the layer `parks` alone, where the
resolved set is that subset and not the three queryable layers; and a click while the store
has no queryable layer at all. -/
theorem empty_layer_set_witness :
    resolveLayers (worldOf selectedState sampleTransport).state = [parksLayer]
      ∧ resolveLayers (worldOf emptyState sampleTransport).state = []
      ∧ ClickEpic.emits sampleCollaborators ClickEpic.initial
          (clickInput plainClick (worldOf emptyState sampleTransport)
            :: untilNextClick [.settled 0, .settled 1])
        = [.purgeMapInfoResults, .noQueryableLayers] :=
  ⟨(empty_layer_set sampleCollaborators ClickEpic.initial
      (worldOf selectedState sampleTransport) plainClick []).2.1
      (by simp [worldOf, selectedState]),
    rfl,
    ((empty_layer_set sampleCollaborators ClickEpic.initial
      (worldOf emptyState sampleTransport) plainClick [.settled 0, .settled 1]).2.2.2.1 rfl).2⟩

/-! ## The secondary fetch of the executor -/

/-- C5 (secondary-geometry fail-soft). When `attachJSON` is true and the `info_format` of the
request is not `"application/json"`, if the primary fetch succeeds with `response` and the
fetch that forces `application/json` fails, with whatever fault, `getFeatureInfo` does not
fail: it delivers a result whose fields are those of `response`, unchanged, with `features`
and `featuresCrs` both `undefined`, whatever the pinned item. -/
theorem getFeatureInfo_secondary_fail_soft (axiosGet : Transport) (parseURN : JSVal → JSVal)
    (basePath : JSVal) (param : JSObj) (itemId : JSVal) (response : AxiosResponse) (e : Fault)
    (hformat : strictEq (objGet param "info_format") (.str "application/json") = false)
    (hprimary : axiosGet basePath param = .ok response)
    (hsecondary :
      axiosGet basePath (objSet param "info_format" (.str "application/json")) = .error e) :
    getFeatureInfo axiosGet parseURN basePath param true itemId =
      .ok { data := response.data, status := response.status, statusText := response.statusText,
            headers := response.headers, config := response.config, request := response.request,
            features := .undefined, featuresCrs := .undefined } := by
  simp [getFeatureInfo, hformat, hprimary, secondaryFlow, hsecondary, mergeGeometry, featuresOf,
    featuresCrsOf, truthy, getField, objGet]

/-- Witness of C5: a plain-text request on the sample network, which does not find the
`application/json` variant. -/
theorem getFeatureInfo_secondary_fail_soft_witness :
    getFeatureInfo sampleTransport (fun v => v) (.str "/geoserver/wms")
        [("query_layers", .str "roads"), ("info_format", .str "text/plain")] true (.str "roads.1")
      = .ok { data := .str "no features were found", status := .num 200, statusText := .str "OK",
              headers := .obj [], config := .obj [], request := .obj [],
              features := .undefined, featuresCrs := .undefined } :=
  getFeatureInfo_secondary_fail_soft sampleTransport (fun v => v) (.str "/geoserver/wms")
    [("query_layers", .str "roads"), ("info_format", .str "text/plain")] (.str "roads.1")
    (textResponse "no features were found")
    (.transport .undefined (.str "Not Found") (.num 404)) rfl rfl rfl

/-! ## The terminal event of a query -/

theorem getField_of_not_isNil (v : JSVal) (k : String) (h : isNil v = false) :
    ∃ x, getField v k = .ok x := by
  cases v <;> simp [isNil] at h <;> exact ⟨_, rfl⟩

theorem getField_of_isNil (v : JSVal) (k : String) (h : isNil v = true) :
    getField v k = .error .typeError := by
  cases v <;> simp [isNil] at h <;> rfl

/-- Counterexample to C6 as stated: the executor of the layer `roads` succeeds with a `null`
payload, and the terminal event is an errored event, neither an exceptions event nor a loaded
event. -/
theorem null_payload_is_errored :
    layerOutcome sampleCollaborators nullBodyTransport highlightState [] roadsLayer
        = .ok { data := .null, status := .num 200, statusText := .str "OK", headers := .obj [],
                config := .obj [], request := .obj [], features := .null, featuresCrs := .null }
      ∧ (projectLayer sampleCollaborators nullBodyTransport highlightState [] 3 roadsLayer).events
        = [.newMapInfoRequest 3
              [("query_layers", .str "roads"), ("info_format", .str "text/plain")],
            .errorFeatureInfo 3 .undefined
              [("query_layers", .str "roads"), ("info_format", .str "text/plain")]
              [("title", .str "roads")]] :=
  ⟨rfl, rfl⟩

/-- C6 as amended (terminal-event classification). For a layer with a direct endpoint the
observable emits the started event and then exactly one terminal event, which no outcome of
the executor leaves out and which is never an exception of the epic:
* the executor succeeds with a payload that is neither `null` nor `undefined`: an exceptions
  event carrying the `exceptions` field of the payload when that field is truthy, and otherwise
  a loaded event carrying the payload, the request parameters, the layer and the metadata
  extended with the `features` and `featuresCrs` of the result;
* the executor succeeds with a `null` or `undefined` payload: an errored event without
  diagnostic;
* the executor faults: an errored event whose diagnostic is the `data` of the fault when it is
  truthy, else its `statusText` when it is truthy, else its `status`. -/
theorem terminal_classification (c : Collaborators) (axiosGet : Transport) (state : StoreState)
    (overrideParams : List (String × JSObj)) (reqId : Nat) (layer : Layer)
    (hurl : truthy (c.buildIdentifyRequest layer state.identifyOptions).url = true) :
    (projectLayer c axiosGet state overrideParams reqId layer).events
        = [.newMapInfoRequest reqId (layerParam c state overrideParams layer),
            layerTerminal c axiosGet state overrideParams reqId layer]
      ∧ (∀ response, layerOutcome c axiosGet state overrideParams layer = .ok response →
          isNil response.data = false →
          ∃ exceptions, getField response.data "exceptions" = .ok exceptions
            ∧ layerTerminal c axiosGet state overrideParams reqId layer =
              if truthy exceptions then
                .exceptionsFeatureInfo reqId exceptions
                  (layerRequest c state overrideParams layer)
                  (c.buildIdentifyRequest layer state.identifyOptions).metadata
              else
                .loadFeatureInfo reqId response.data
                  (layerRequest c state overrideParams layer)
                  (objSet (objSet (c.buildIdentifyRequest layer state.identifyOptions).metadata
                    "features" response.features) "featuresCrs" response.featuresCrs)
                  layer)
      ∧ (∀ response, layerOutcome c axiosGet state overrideParams layer = .ok response →
          isNil response.data = true →
          layerTerminal c axiosGet state overrideParams reqId layer
            = .errorFeatureInfo reqId .undefined
              (layerRequest c state overrideParams layer)
              (c.buildIdentifyRequest layer state.identifyOptions).metadata)
      ∧ (∀ data statusText status,
          layerOutcome c axiosGet state overrideParams layer
            = .error (.transport data statusText status) →
          layerTerminal c axiosGet state overrideParams reqId layer
            = .errorFeatureInfo reqId
              (if truthy data then data else if truthy statusText then statusText else status)
              (layerRequest c state overrideParams layer)
              (c.buildIdentifyRequest layer state.identifyOptions).metadata)
      ∧ (layerOutcome c axiosGet state overrideParams layer = .error .typeError →
          layerTerminal c axiosGet state overrideParams reqId layer
            = .errorFeatureInfo reqId .undefined
              (layerRequest c state overrideParams layer)
              (c.buildIdentifyRequest layer state.identifyOptions).metadata) := by
  rw [projectLayer_direct c axiosGet state overrideParams reqId layer hurl]
  refine ⟨rfl, ?_, ?_, ?_, ?_⟩
  · intro response hout hnil
    obtain ⟨x, hx⟩ := getField_of_not_isNil response.data "exceptions" hnil
    refine ⟨x, hx, ?_⟩
    simp only [layerTerminal, terminalEvent, hout, mapResponse, hx]
    by_cases ht : truthy x = true <;> simp [ht]
  · intro response hout hnil
    have hx := getField_of_isNil response.data "exceptions" hnil
    simp [layerTerminal, terminalEvent, hout, mapResponse, hx, catchFault, Fault.diagnostic,
      jsOr, truthy]
  · intro data statusText status hout
    simp only [layerTerminal, terminalEvent, hout, catchFault, Fault.diagnostic, jsOr]
    by_cases hd : truthy data = true <;> by_cases hs : truthy statusText = true <;> simp [hd, hs]
  · intro hout
    simp [layerTerminal, terminalEvent, hout, catchFault, Fault.diagnostic, jsOr, truthy]

/-- Witness of C6 as amended: the layer `parks` on the sample network, whose fault has a
response body. -/
theorem terminal_classification_witness :
    truthy (sampleCollaborators.buildIdentifyRequest parksLayer sampleState.identifyOptions).url
        = true
      ∧ layerTerminal sampleCollaborators sampleTransport sampleState [] 7 parksLayer
        = .errorFeatureInfo 7 (.str "Internal error")
            [("query_layers", .str "parks"), ("info_format", .str "text/plain")]
            [("title", .str "parks")] :=
  ⟨rfl,
    (terminal_classification sampleCollaborators sampleTransport sampleState [] 7 parksLayer
      rfl).2.2.2.1 (.str "Internal error") (.str "Internal Server Error") (.num 500) rfl⟩

/-! ## The purge at the start of a fan-out -/

theorem fanOut_immediate_not_purge (c : Collaborators) (w : World) (ov : List (String × JSObj))
    (ls : List Layer) (i n : Nat) :
    ∀ e ∈ (fanOut c w ov ls i n).map LayerFlow.immediate,
      e.isPurge = false ∧ (e.isStarted = true ∨ e.isVectorInfo = true) := by
  induction ls generalizing i n with
  | nil => simp [fanOut]
  | cons l ls ih =>
    intro e he
    simp only [fanOut, List.map_cons, List.mem_cons] at he
    rcases he with he | he
    · rcases projectLayer_cases c w.axiosGet (w.layerState i) ov n l with ⟨p, q, h, _⟩ | ⟨r, m, h⟩
      · rw [h] at he; subst he
        simp [LayerFlow.immediate, Action.isPurge, Action.isStarted]
      · rw [h] at he; subst he
        simp [LayerFlow.immediate, Action.isPurge, Action.isVectorInfo]
    · exact ih _ _ e he

theorem terminal_not_purge (p : Pending) : p.terminal.isPurge = false := by
  have h := (Pending.terminal_requestId p).1
  cases hp : p.terminal <;> simp [hp, Action.isTerminal, Action.isPurge] at h ⊢

theorem isMultiSelection_iff (point : Option Point) :
    isMultiSelection point = true ↔
      ∃ p, point = some p ∧ truthy p.modifiers = true ∧ ctrlOf p.modifiers = .bool true
        ∧ truthy p.multiSelection = true := by
  cases point with
  | none => simp [isMultiSelection]
  | some p =>
    simp only [isMultiSelection, Bool.and_eq_true, Option.some.injEq, exists_eq_left']
    constructor
    · rintro ⟨⟨h1, h2⟩, h3⟩
      refine ⟨h1, ?_, h3⟩
      cases hc : ctrlOf p.modifiers <;> simp [hc, strictEq] at h2 ⊢
      exact h2
    · rintro ⟨h1, h2, h3⟩
      exact ⟨⟨h1, by simp [h2, strictEq]⟩, h3⟩

/-- Counterexample to C7 as stated: two events whose `multiSelection` flag is true. Without
the `ctrl` modifier the fan-out starts with `purgeMapInfoResults()`; and with the modifier,
when the store has no queryable layer, the click still emits `purgeMapInfoResults()`. -/
theorem purge_despite_flag :
    ClickEpic.emits sampleCollaborators ClickEpic.initial
        [clickInput (clickOn (pointAt 700 (.obj [("ctrl", .bool false)]) (.bool true)))
          (worldOf sampleState sampleTransport)]
      = [.purgeMapInfoResults,
          .newMapInfoRequest 0 [("query_layers", .str "roads"), ("info_format", .str "text/plain")],
          .newMapInfoRequest 1 [("query_layers", .str "parks"), ("info_format", .str "text/plain")],
          .getVectorInfo notesLayer [("lat", .num 43), ("lng", .num 11)]
            [("title", .str "notes")]]
      ∧ ClickEpic.emits sampleCollaborators ClickEpic.initial
          [clickInput (clickOn (pointAt 700 (.obj [("ctrl", .bool true)]) (.bool true)))
            (worldOf emptyState sampleTransport)]
        = [.purgeMapInfoResults, .noQueryableLayers] :=
  ⟨rfl, rfl⟩

/-- C7 as amended (multi-selection). The gesture the epic tests is
`point && point.modifiers && point.modifiers.ctrl === true && point.multiSelection`. For a
click whose resolved layer set is not empty: when the event is such a gesture, no
`purgeMapInfoResults()` is emitted by its fan-out, from its arrival to the next interaction
event; when it is not, `purgeMapInfoResults()` is the first event of the fan-out and is
emitted exactly once, so before every started, vector-info and terminal event. -/
theorem multi_selection (c : Collaborators) (s : ClickEpic) (w : World) (click : ClickPayload)
    (rest : List ClickInput) (hne : resolveLayers w.state ≠ []) :
    (isMultiSelection click.point = true ↔
        ∃ p, click.point = some p ∧ truthy p.modifiers = true
          ∧ ctrlOf p.modifiers = .bool true ∧ truthy p.multiSelection = true)
      ∧ (isMultiSelection click.point = true →
          ∀ e ∈ ClickEpic.emits c s (clickInput click w :: untilNextClick rest),
            e.isPurge = false)
      ∧ (isMultiSelection click.point = false →
          ∃ tail, ClickEpic.emits c s (clickInput click w :: untilNextClick rest)
              = .purgeMapInfoResults :: tail
            ∧ ∀ e ∈ tail, e.isPurge = false
              ∧ (e.isStarted = true ∨ e.isVectorInfo = true ∨ e.isTerminal = true)) := by
  have hlen : ((resolveLayers w.state).length == 0) = false := by
    cases h : resolveLayers w.state with
    | nil => exact absurd h hne
    | cons x xs => simp
  have hlater : ∀ e ∈ (runClickEpic c
      (getFeatureInfoOnFeatureInfoClick c s (clickInput click w)).1 (untilNextClick rest)).2,
      e.isPurge = false ∧ e.isTerminal = true := by
    intro e he
    obtain ⟨p, _, hpe⟩ := run_noClick_terminal c _ _ (fun i hi => mem_untilNextClick hi) e he
    rw [hpe]
    exact ⟨terminal_not_purge p, (Pending.terminal_requestId p).1⟩
  refine ⟨isMultiSelection_iff click.point, ?_, ?_⟩
  · intro hmulti e he
    simp only [ClickEpic.emits, runClickEpic, List.mem_append] at he
    rcases he with he | he
    · simp only [clickInput, getFeatureInfoOnFeatureInfoClick, onFeatureInfoClick, hlen, hmulti,
        Bool.false_eq_true, if_false, if_true] at he
      exact (fanOut_immediate_not_purge _ _ _ _ _ _ e he).1
    · exact (hlater e he).1
  · intro hmulti
    refine ⟨(clickFlows c w s.nextId click).map LayerFlow.immediate
      ++ (runClickEpic c (getFeatureInfoOnFeatureInfoClick c s (clickInput click w)).1
        (untilNextClick rest)).2, ?_, ?_⟩
    · simp only [ClickEpic.emits, runClickEpic]
      simp only [clickInput, getFeatureInfoOnFeatureInfoClick, onFeatureInfoClick, hlen, hmulti,
        Bool.false_eq_true, if_false, List.cons_append]
    · intro e he
      rcases List.mem_append.mp he with he | he
      · have h := fanOut_immediate_not_purge _ _ _ _ _ _ e he
        exact ⟨h.1, h.2.elim Or.inl (fun hv => Or.inr (Or.inl hv))⟩
      · exact ⟨(hlater e he).1, Or.inr (Or.inr (hlater e he).2)⟩

/-- Witness of C7 as amended: a click with the `ctrl` modifier and the flag, on the sample
store, followed by the settlement of its two queries. -/
theorem multi_selection_witness :
    resolveLayers (worldOf sampleState sampleTransport).state ≠ []
      ∧ isMultiSelection
          (clickOn (pointAt 700 (.obj [("ctrl", .bool true)]) (.bool true))).point = true
      ∧ (ClickEpic.emits sampleCollaborators ClickEpic.initial
            (clickInput (clickOn (pointAt 700 (.obj [("ctrl", .bool true)]) (.bool true)))
                (worldOf sampleState sampleTransport)
              :: untilNextClick [.settled 1, .settled 0])).all (fun e => !e.isPurge) = true :=
  ⟨by simp [resolveLayers, worldOf, sampleState], rfl,
    List.all_eq_true.mpr fun e he => by
      rw [(multi_selection sampleCollaborators ClickEpic.initial
        (worldOf sampleState sampleTransport)
        (clickOn (pointAt 700 (.obj [("ctrl", .bool true)]) (.bool true)))
        [.settled 1, .settled 0] (by simp [resolveLayers, worldOf, sampleState])).2.1 rfl e he]
      rfl⟩

/-! ## The name filter -/

theorem indexOfFrom_ne_neg_one (pat : List Char) (s : List Char) (i : Nat) :
    indexOfFrom pat s i ≠ -1 ↔ pat <:+: s := by
  induction s generalizing i with
  | nil =>
    unfold indexOfFrom
    cases pat with
    | nil => simp
    | cons p ps => simp
  | cons c cs ih =>
    unfold indexOfFrom
    by_cases h : pat.isPrefixOf (c :: cs) = true
    · simp only [h, if_true]
      have hp : pat <+: c :: cs := List.isPrefixOf_iff_prefix.mp h
      constructor
      · intro _; exact hp.isInfix
      · intro _; omega
    · rw [if_neg h, ih (i + 1), List.infix_cons_iff]
      constructor
      · intro hcs; exact Or.inr hcs
      · intro hor
        rcases hor with hp | hcs
        · exact absurd (List.isPrefixOf_iff_prefix.mpr hp) h
        · exact hcs

theorem layerRetained_iff (filterNameList : List String) (l : Layer) :
    layerRetained filterNameList l = true ↔ NameMatches filterNameList l := by
  unfold layerRetained NameMatches
  cases filterNameList with
  | nil => simp
  | cons n ns =>
    simp only [List.length_cons, bne_iff_ne, ne_eq, Nat.add_one_ne_zero, not_false_eq_true,
      if_true, decide_eq_true_eq, List.length_pos, false_or]
    constructor
    · intro hne
      obtain ⟨x, hx⟩ := List.exists_mem_of_ne_nil _ hne
      rw [List.mem_filter] at hx
      refine Or.inr ⟨x, hx.1, ?_⟩
      have := hx.2
      simp only [bne_iff_ne, ne_eq, indexOf] at this
      exact (indexOfFrom_ne_neg_one _ _ 0).mp this
    · rintro (hnil | ⟨x, hx, hinf⟩)
      · exact absurd hnil (List.cons_ne_nil _ _)
      apply List.ne_nil_of_mem (a := x)
      rw [List.mem_filter]
      refine ⟨hx, ?_⟩
      simp only [bne_iff_ne, ne_eq, indexOf]
      exact (indexOfFrom_ne_neg_one _ _ 0).mpr hinf

theorem projectLayer_layer (c : Collaborators) (axiosGet : Transport) (state : StoreState)
    (ov : List (String × JSObj)) (reqId : Nat) (layer : Layer) :
    (projectLayer c axiosGet state ov reqId layer).layer = some layer := by
  unfold projectLayer
  by_cases h : truthy (c.buildIdentifyRequest layer state.identifyOptions).url = true
  · simp [h, LayerFlow.layer]
  · simp [h, LayerFlow.layer]

theorem fanOut_layers (c : Collaborators) (w : World) (ov : List (String × JSObj))
    (ls : List Layer) (i n : Nat) :
    (fanOut c w ov ls i n).map LayerFlow.layer = ls.map some := by
  induction ls generalizing i n with
  | nil => simp [fanOut]
  | cons l ls ih => simp [fanOut, projectLayer_layer, ih]

/-- C8 (name filtering). For a click whose resolved layer list is not empty: a layer passes
the filter exactly when the filter list is empty or the name of the layer occurs as a
contiguous part of at least one entry of the list; the flows of the fan-out (each one either
a query on an endpoint, with its started event, or a vector-info event) are, in order, the
flows of the resolved layers that pass, and of no other layer; with an empty filter list they
are those of all resolved layers; the retained layers keep the order of the resolved list;
and the click emits one event per flow, after the purge if there is one. -/
theorem name_filtering (c : Collaborators) (s : ClickEpic) (w : World) (click : ClickPayload)
    (hne : resolveLayers w.state ≠ []) :
    (∀ l, layerRetained (click.filterNameList.getD []) l = true
        ↔ NameMatches (click.filterNameList.getD []) l)
      ∧ (clickFlows c w s.nextId click).map LayerFlow.layer
        = ((resolveLayers w.state).filter
            (layerRetained (click.filterNameList.getD []))).map some
      ∧ (click.filterNameList.getD [] = [] →
          (clickFlows c w s.nextId click).map LayerFlow.layer
            = (resolveLayers w.state).map some)
      ∧ ((resolveLayers w.state).filter
          (layerRetained (click.filterNameList.getD []))).Sublist (resolveLayers w.state)
      ∧ (getFeatureInfoOnFeatureInfoClick c s (clickInput click w)).2
        = (if isMultiSelection click.point then [] else [.purgeMapInfoResults])
          ++ (clickFlows c w s.nextId click).map LayerFlow.immediate
      ∧ (getFeatureInfoOnFeatureInfoClick c s (clickInput click w)).1.inflight
        = pendingOf (clickFlows c w s.nextId click) := by
  have hlen : ((resolveLayers w.state).length == 0) = false := by
    cases h : resolveLayers w.state with
    | nil => exact absurd h hne
    | cons x xs => simp
  have hflows : (clickFlows c w s.nextId click).map LayerFlow.layer
      = ((resolveLayers w.state).filter
          (layerRetained (click.filterNameList.getD []))).map some := by
    simp only [clickFlows, retainedLayers, fanOut_layers]
  refine ⟨fun l => layerRetained_iff _ l, hflows, ?_, List.filter_sublist _, ?_, ?_⟩
  · intro hnil
    rw [hflows, hnil]
    congr 1
    apply List.filter_eq_self.mpr
    intro l _
    simp [layerRetained]
  · by_cases hmulti : isMultiSelection click.point = true
    · simp [clickInput, getFeatureInfoOnFeatureInfoClick, onFeatureInfoClick, hlen, hmulti]
    · simp [clickInput, getFeatureInfoOnFeatureInfoClick, onFeatureInfoClick, hlen, hmulti]
  · by_cases hmulti : isMultiSelection click.point = true
    · simp [clickInput, getFeatureInfoOnFeatureInfoClick, onFeatureInfoClick, hlen, hmulti]
    · simp [clickInput, getFeatureInfoOnFeatureInfoClick, onFeatureInfoClick, hlen, hmulti]

/-- Witness of C8: of the layers `roads`, `parks` and `notes` the filter list
`["topp:roads", "my notes layer"]` retains `roads` and `notes`. -/
theorem name_filtering_witness :
    resolveLayers (worldOf sampleState sampleTransport).state ≠ []
      ∧ (clickFlows sampleCollaborators (worldOf sampleState sampleTransport) 0
          filteredClick).map LayerFlow.layer
        = [some roadsLayer, some notesLayer] :=
  ⟨by simp [resolveLayers, worldOf, sampleState],
    (name_filtering sampleCollaborators ClickEpic.initial (worldOf sampleState sampleTransport)
      filteredClick (by simp [resolveLayers, worldOf, sampleState])).2.1⟩

/-! ## The recentring guard -/

/-- C9, the defect. While a click is live, a `LOAD_FEATURE_INFO` or `ERROR_FEATURE_INFO` action
that arrives when the store has no map does not emit `updateCenterToMarker('disabled')`: the
callback reads `map.zoom` before it tests `!map`, the read throws, and the epic ends with
an error notification. -/
theorem recentring_guard_no_map_throws (c : Collaborators) (s : ZoomEpic) (action : ClickPayload)
    (a : Action) (state : StoreState) (hclick : s.click = some action)
    (ha : a.isLoadOrError = true) (hmap : state.map = none) :
    zoomToVisibleAreaEpic c s a state = .error .typeError := by
  cases a <;> simp [Action.isLoadOrError] at ha <;>
    simp [zoomToVisibleAreaEpic, hclick, onTerminalAction, onTerminalEvent, resolutionOf, hmap]

/-- Witness of the defect: the store before the map is loaded, a live click, a loaded
event. -/
theorem recentring_guard_no_map_throws_witness :
    runZoomEpic sampleCollaborators ZoomEpic.initial
        [(.featureInfoClick plainClick, noMapState), (sampleLoaded, noMapState)]
      = { state := { click := some plainClick, restore := none }, emitted := [],
          failed := some .typeError } := by
  have h := recentring_guard_no_map_throws sampleCollaborators
    { click := some plainClick, restore := none } plainClick sampleLoaded noMapState rfl rfl rfl
  simp only [runZoomEpic, h]
  rfl

/-- The guard when the store has a map: each of the other conditions (no layout insets, no
map size, no coordinate on the event, a cartographic coordinate, a coordinate inside the
visible rectangle, hover identification active) makes the handler emit exactly
`updateCenterToMarker('disabled')` and leaves no restore armed. -/
theorem recentring_guard_with_map (c : Collaborators) (s : ZoomEpic) (action : ClickPayload)
    (a : Action) (state : StoreState) (m : MapState) (hclick : s.click = some action)
    (ha : a.isLoadOrError = true) (hmap : state.map = some m)
    (hguard : state.boundingMapRect = none ∨ m.size = none
      ∨ truthy (coordsOf action) = false ∨ truthy (cartographicOf action) = true
      ∨ (∃ lb, layoutBoundsOf c state.boundingMapRect state.map = some lb
          ∧ c.isInsideVisibleArea (coordsOf action) m lb (c.getCurrentResolution m.zoom 0 21 96)
            = true)
      ∨ state.isMouseMoveIdentifyActive = true) :
    zoomToVisibleAreaEpic c s a state
      = .ok ({ s with restore := none }, [.updateCenterToMarker "disabled"]) := by
  have hterm : onTerminalEvent c state action = .ok .disabled := by
    simp only [onTerminalEvent, resolutionOf, hmap]
    cases hlb : layoutBoundsOf c state.boundingMapRect (some m) with
    | none => rfl
    | some lb =>
      simp only
      rcases hguard with h | h | h | h | h | h
      · simp [layoutBoundsOf, h] at hlb
      · cases hr : state.boundingMapRect <;> simp [layoutBoundsOf, h, hr] at hlb
      · simp [h]
      · simp [h]
      · obtain ⟨lb', hlb', hin⟩ := h
        rw [hmap, hlb] at hlb'
        cases hlb'
        simp [hin]
      · simp [h]
  cases a <;> simp [Action.isLoadOrError] at ha <;>
    simp [zoomToVisibleAreaEpic, hclick, onTerminalAction, hterm]

/-! ## The restore of the viewport -/

theorem zoom_step_of_not_terminal (c : Collaborators) (s : ZoomEpic) (a : Action)
    (state : StoreState) (ha : a.isLoadOrError = false) :
    ∃ s1 out, zoomToVisibleAreaEpic c s a state = .ok (s1, out)
      ∧ (s.restore = none → s1.restore = none ∧ out = [])
      ∧ (∀ r, s.restore = some r →
          s1.restore = none
            ∨ (a.isChangeMapView = false ∧ s1.restore = some r)
            ∨ (a.isChangeMapView = true ∧ r.changes = 0
                ∧ s1.restore = some { r with changes := 1 })) := by
  cases a <;> simp [Action.isLoadOrError] at ha
  case featureInfoClick click =>
    by_cases hc : state.centerToMarker = true
    · exact ⟨_, _, by simp [zoomToVisibleAreaEpic, hc]; exact ⟨rfl, rfl⟩, by simp, by simp⟩
    · refine ⟨s, [], by simp [zoomToVisibleAreaEpic, hc], by simp, ?_⟩
      intro r hr
      exact Or.inr (Or.inl ⟨rfl, hr⟩)
  case closeIdentify =>
    cases hr : s.restore with
    | none => exact ⟨s, [], by simp [zoomToVisibleAreaEpic, hr], by simp [hr], by simp⟩
    | some r =>
      refine ⟨s, [restoreAction c r.map], by simp [zoomToVisibleAreaEpic, hr], by simp, ?_⟩
      intro r' hr'
      cases hr'
      exact Or.inr (Or.inl ⟨rfl, hr⟩)
  case changeMapView center zoom bbox size src proj =>
    cases hr : s.restore with
    | none => exact ⟨s, [], by simp [zoomToVisibleAreaEpic, hr], by simp [hr], by simp⟩
    | some r =>
      by_cases hch : r.changes ≥ 1
      · exact ⟨{ s with restore := none }, [], by simp [zoomToVisibleAreaEpic, hr, hch], by simp,
          by simp⟩
      · refine ⟨{ s with restore := some { r with changes := r.changes + 1 } }, [],
          by simp [zoomToVisibleAreaEpic, hr, hch], by simp, ?_⟩
        intro r' hr'
        cases hr'
        have h0 : r.changes = 0 := by omega
        exact Or.inr (Or.inr ⟨rfl, h0, by simp [h0]⟩)
  all_goals
    refine ⟨s, [], by simp [zoomToVisibleAreaEpic], fun h => ⟨h, rfl⟩, ?_⟩
    intro r hr
    exact Or.inr (Or.inl ⟨rfl, hr⟩)

theorem zoom_run_disarmed (c : Collaborators) (inputs : List (Action × StoreState)) :
    ∀ s : ZoomEpic, s.restore = none → (∀ i ∈ inputs, i.1.isLoadOrError = false) →
      (runZoomEpic c s inputs).emitted = [] ∧ (runZoomEpic c s inputs).failed = none
        ∧ (runZoomEpic c s inputs).state.restore = none := by
  induction inputs with
  | nil => intro s hs _; simp [runZoomEpic, hs]
  | cons i rest ih =>
    intro s hs hno
    obtain ⟨a, state⟩ := i
    obtain ⟨s1, out, hstep, hnone, _⟩ :=
      zoom_step_of_not_terminal c s a state (hno (a, state) (List.mem_cons_self _ _))
    have h1 := hnone hs
    have hrest := ih s1 h1.1 (fun j hj => hno j (List.mem_cons_of_mem _ hj))
    simp only [runZoomEpic, hstep, h1.2, List.nil_append]
    exact hrest

theorem zoom_run_cancels (c : Collaborators) (inputs : List (Action × StoreState)) :
    ∀ s : ZoomEpic,
      (∀ r, s.restore = some r → r.changes ≤ 1 ∧ 2 ≤ r.changes + viewChanges inputs) →
      (∀ i ∈ inputs, i.1.isLoadOrError = false) →
      (runZoomEpic c s inputs).failed = none ∧ (runZoomEpic c s inputs).state.restore = none := by
  induction inputs with
  | nil =>
    intro s hs _
    refine ⟨rfl, ?_⟩
    cases hr : s.restore with
    | none => simp [runZoomEpic, hr]
    | some r =>
      have := hs r hr
      simp only [viewChanges, List.filter_nil, List.length_nil, Nat.add_zero] at this
      omega
  | cons i rest ih =>
    intro s hs hno
    obtain ⟨a, state⟩ := i
    obtain ⟨s1, out, hstep, hnone, hsome⟩ :=
      zoom_step_of_not_terminal c s a state (hno (a, state) (List.mem_cons_self _ _))
    have hrest : ∀ j ∈ rest, j.1.isLoadOrError = false :=
      fun j hj => hno j (List.mem_cons_of_mem _ hj)
    simp only [runZoomEpic, hstep]
    cases hr : s.restore with
    | none =>
      have h := zoom_run_disarmed c rest s1 (hnone hr).1 hrest
      exact ⟨h.2.1, h.2.2⟩
    | some r =>
      have hinv := hs r hr
      rcases hsome r hr with h1 | ⟨hnot, h1⟩ | ⟨hcmv, h0, h1⟩
      · have h := zoom_run_disarmed c rest s1 h1 hrest
        exact ⟨h.2.1, h.2.2⟩
      · refine ih s1 ?_ hrest
        intro r' hr'
        rw [h1] at hr'
        cases hr'
        have hcount : viewChanges ((a, state) :: rest) = viewChanges rest := by
          simp [viewChanges, List.filter_cons, hnot]
        rw [hcount] at hinv
        exact hinv
      · refine ih s1 ?_ hrest
        intro r' hr'
        rw [h1] at hr'
        cases hr'
        have hcount : viewChanges ((a, state) :: rest) = viewChanges rest + 1 := by
          simp [viewChanges, List.filter_cons, hcmv]
        rw [hcount, h0] at hinv
        simp only
        omega

theorem zoom_run_append (c : Collaborators) (xs ys : List (Action × StoreState)) :
    ∀ s : ZoomEpic, (runZoomEpic c s xs).failed = none →
      (runZoomEpic c s (xs ++ ys)).failed = (runZoomEpic c (runZoomEpic c s xs).state ys).failed
        ∧ (runZoomEpic c s (xs ++ ys)).emitted
          = (runZoomEpic c s xs).emitted
            ++ (runZoomEpic c (runZoomEpic c s xs).state ys).emitted := by
  induction xs with
  | nil => intro s _; simp [runZoomEpic]
  | cons i xs ih =>
    intro s hok
    obtain ⟨a, state⟩ := i
    rw [List.cons_append]
    cases hstep : zoomToVisibleAreaEpic c s a state with
    | error e => simp [runZoomEpic, hstep] at hok
    | ok r =>
      obtain ⟨s1, out⟩ := r
      simp only [runZoomEpic, hstep] at hok ⊢
      have := ih s1 hok
      simp [this.1, this.2]

theorem armed_of_recenter (c : Collaborators) (s0 s1 : ZoomEpic) (a : Action) (state : StoreState)
    (x y : Action)
    (h : zoomToVisibleAreaEpic c s0 a state = .ok (s1, [x, y])) :
    ∃ m, s1.restore = some { map := m, changes := 0 } := by
  have hterm : ∀ action, onTerminalAction c s0 state action = .ok (s1, [x, y]) →
      ∃ m, s1.restore = some { map := m, changes := 0 } := by
    intro action hact
    unfold onTerminalAction at hact
    cases htev : onTerminalEvent c state action with
    | error e => simp [htev] at hact
    | ok r =>
      cases r with
      | disabled => simp [htev] at hact
      | silent => simp [htev] at hact
      | recenter center m =>
        simp only [htev, Except.ok.injEq, Prod.mk.injEq] at hact
        exact ⟨m, by rw [← hact.1]⟩
  cases a
  case loadFeatureInfo =>
    cases hc : s0.click with
    | none => simp [zoomToVisibleAreaEpic, hc] at h
    | some action => exact hterm action (by simpa [zoomToVisibleAreaEpic, hc] using h)
  case errorFeatureInfo =>
    cases hc : s0.click with
    | none => simp [zoomToVisibleAreaEpic, hc] at h
    | some action => exact hterm action (by simpa [zoomToVisibleAreaEpic, hc] using h)
  case featureInfoClick click =>
    by_cases hc : state.centerToMarker = true <;> simp [zoomToVisibleAreaEpic, hc] at h
  case closeIdentify =>
    cases hr : s0.restore <;> simp [zoomToVisibleAreaEpic, hr] at h
  case changeMapView =>
    cases hr : s0.restore with
    | none => simp [zoomToVisibleAreaEpic, hr] at h
    | some r => by_cases hch : r.changes ≥ 1 <;> simp [zoomToVisibleAreaEpic, hr, hch] at h
  all_goals simp [zoomToVisibleAreaEpic] at h

theorem viewChanges_append (xs ys : List (Action × StoreState)) :
    viewChanges (xs ++ ys) = viewChanges xs + viewChanges ys := by
  simp [viewChanges, List.filter_append]

theorem onTerminalEvent_recenter_map (c : Collaborators) (state : StoreState)
    (action : ClickPayload) (center : VisibleCenter) (m : MapState)
    (h : onTerminalEvent c state action = .ok (.recenter center m)) : state.map = some m := by
  unfold onTerminalEvent at h
  cases hmap : state.map with
  | none => simp [hmap, resolutionOf] at h
  | some m' =>
    simp only [hmap, resolutionOf] at h
    cases hlb : layoutBoundsOf c state.boundingMapRect (some m') with
    | none => simp [hlb] at h
    | some lb =>
      simp only [hlb] at h
      split at h
      · simp at h
      · split at h
        · simp at h
        · simp only [Except.ok.injEq, Recentring.recenter.injEq] at h
          rw [h.2]

theorem onTerminalAction_origin (c : Collaborators) (m0 : MapState)
    (past : List (Action × StoreState)) (s s1 : ZoomEpic) (a : Action) (state : StoreState)
    (action : ClickPayload) (out : List Action) (ha : a.isLoadOrError = true)
    (h : onTerminalAction c s state action = .ok (s1, out)) :
    RestoreOrigin m0 (past ++ [(a, state)]) s1 ∧ ∀ e ∈ out, e.isChangeMapView = false := by
  unfold onTerminalAction at h
  cases htev : onTerminalEvent c state action with
  | error e => simp [htev] at h
  | ok r =>
    cases r with
    | disabled =>
      simp only [htev, Except.ok.injEq, Prod.mk.injEq] at h
      refine ⟨fun r hr => ?_, fun e he => ?_⟩
      · rw [← h.1] at hr; simp at hr
      · rw [← h.2] at he
        simp only [List.mem_singleton] at he
        subst he; rfl
    | silent =>
      simp only [htev, Except.ok.injEq, Prod.mk.injEq] at h
      refine ⟨fun r hr => ?_, fun e he => ?_⟩
      · rw [← h.1] at hr; simp at hr
      · rw [← h.2] at he; simp at he
    | recenter center m =>
      simp only [htev, Except.ok.injEq, Prod.mk.injEq] at h
      have hm := onTerminalEvent_recenter_map c state action center m htev
      refine ⟨fun r hr => ?_, fun e he => ?_⟩
      · rw [← h.1] at hr
        simp only [Option.some.injEq] at hr
        subst hr
        exact Or.inl ⟨(a, state), by simp, ha, hm⟩
      · rw [← h.2] at he
        simp only [List.mem_cons, List.mem_singleton, List.not_mem_nil, or_false] at he
        rcases he with he | he <;> subst he <;> rfl

theorem origin_mono (m0 : MapState) (past : List (Action × StoreState)) (s : ZoomEpic)
    (i : Action × StoreState) (hi : i.1.isChangeMapView = false)
    (h : RestoreOrigin m0 past s) : RestoreOrigin m0 (past ++ [i]) s := by
  intro r hr
  rcases h r hr with ⟨j, hj, hterm, hmap⟩ | ⟨hm, hch, hle⟩
  · exact Or.inl ⟨j, List.mem_append_left _ hj, hterm, hmap⟩
  · have hcount : viewChanges (past ++ [i]) = viewChanges past := by
      simp [viewChanges_append, viewChanges, List.filter_cons, hi]
    exact Or.inr ⟨hm, by rw [hcount]; exact hch, by rw [hcount]; exact hle⟩

/-- One step keeps the origin of the armed restore, and a `changeMapView` it emits is the
restore that was armed. -/
theorem zoom_step_origin (c : Collaborators) (m0 : MapState)
    (past : List (Action × StoreState)) (s s1 : ZoomEpic) (a : Action) (state : StoreState)
    (out : List Action) (hinv : RestoreOrigin m0 past s)
    (h : zoomToVisibleAreaEpic c s a state = .ok (s1, out)) :
    RestoreOrigin m0 (past ++ [(a, state)]) s1
      ∧ ∀ e ∈ out, e.isChangeMapView = true → ∃ r, s.restore = some r ∧ e = restoreAction c r.map := by
  cases a
  case loadFeatureInfo =>
    rename_i f1 f2 f3 f4 f5
    cases hc : s.click with
    | none =>
      simp only [zoomToVisibleAreaEpic, hc, Except.ok.injEq, Prod.mk.injEq] at h
      rw [← h.1, ← h.2]
      exact ⟨origin_mono m0 past s _ rfl hinv, by simp⟩
    | some action =>
      simp only [zoomToVisibleAreaEpic, hc] at h
      have := onTerminalAction_origin c m0 past s s1 (.loadFeatureInfo f1 f2 f3 f4 f5) state
        action out rfl h
      exact ⟨this.1, fun e he hcm => by rw [this.2 e he] at hcm; cases hcm⟩
  case errorFeatureInfo =>
    rename_i f1 f2 f3 f4
    cases hc : s.click with
    | none =>
      simp only [zoomToVisibleAreaEpic, hc, Except.ok.injEq, Prod.mk.injEq] at h
      rw [← h.1, ← h.2]
      exact ⟨origin_mono m0 past s _ rfl hinv, by simp⟩
    | some action =>
      simp only [zoomToVisibleAreaEpic, hc] at h
      have := onTerminalAction_origin c m0 past s s1 (.errorFeatureInfo f1 f2 f3 f4) state
        action out rfl h
      exact ⟨this.1, fun e he hcm => by rw [this.2 e he] at hcm; cases hcm⟩
  case featureInfoClick click =>
    by_cases hcm : state.centerToMarker = true
    · simp only [zoomToVisibleAreaEpic, hcm, if_true, Except.ok.injEq, Prod.mk.injEq] at h
      rw [← h.1, ← h.2]
      exact ⟨fun r hr => by simp at hr, by simp⟩
    · simp only [zoomToVisibleAreaEpic, hcm, Bool.false_eq_true, if_false, Except.ok.injEq,
        Prod.mk.injEq] at h
      rw [← h.1, ← h.2]
      exact ⟨origin_mono m0 past s _ rfl hinv, by simp⟩
  case closeIdentify =>
    cases hr : s.restore with
    | none =>
      simp only [zoomToVisibleAreaEpic, hr, Except.ok.injEq, Prod.mk.injEq] at h
      rw [← h.1, ← h.2]
      exact ⟨origin_mono m0 past s _ rfl hinv, by simp⟩
    | some r =>
      simp only [zoomToVisibleAreaEpic, hr, Except.ok.injEq, Prod.mk.injEq] at h
      rw [← h.1, ← h.2]
      refine ⟨origin_mono m0 past s _ rfl hinv, fun e he _ => ?_⟩
      simp only [List.mem_singleton] at he
      exact ⟨r, rfl, he⟩
  case changeMapView center zoom bbox size src proj =>
    cases hr : s.restore with
    | none =>
      simp only [zoomToVisibleAreaEpic, hr, Except.ok.injEq, Prod.mk.injEq] at h
      rw [← h.1, ← h.2]
      exact ⟨fun r hr' => (by rw [hr] at hr'; cases hr'), by simp⟩
    | some r =>
      by_cases hch : r.changes ≥ 1
      · simp only [zoomToVisibleAreaEpic, hr, hch, if_true, Except.ok.injEq,
          Prod.mk.injEq] at h
        rw [← h.1, ← h.2]
        exact ⟨fun r' hr' => by simp at hr', by simp⟩
      · simp only [zoomToVisibleAreaEpic, hr, hch, if_false, Except.ok.injEq,
          Prod.mk.injEq] at h
        rw [← h.1, ← h.2]
        refine ⟨fun r' hr' => ?_, by simp⟩
        simp only [Option.some.injEq] at hr'
        subst hr'
        have hcount : viewChanges (past ++ [(Action.changeMapView center zoom bbox size src proj,
            state)]) = viewChanges past + 1 := by
          simp [viewChanges_append, viewChanges, List.filter_cons, Action.isChangeMapView]
        rcases hinv r hr with ⟨j, hj, hterm, hmap⟩ | ⟨hm, hcnt, hle⟩
        · exact Or.inl ⟨j, List.mem_append_left _ hj, hterm, hmap⟩
        · refine Or.inr ⟨hm, ?_, ?_⟩
          · rw [hcount]; simp only; omega
          · rw [hcount]; omega
  all_goals
    simp only [zoomToVisibleAreaEpic, Except.ok.injEq, Prod.mk.injEq] at h
    rw [← h.1, ← h.2]
    exact ⟨origin_mono m0 past s _ rfl hinv, by simp⟩
theorem zoom_run_append_emitted (c : Collaborators) (xs ys : List (Action × StoreState)) :
    ∀ s : ZoomEpic, (runZoomEpic c s (xs ++ ys)).emitted
      = (runZoomEpic c s xs).emitted
        ++ (match (runZoomEpic c s xs).failed with
            | none => (runZoomEpic c (runZoomEpic c s xs).state ys).emitted
            | some _ => []) := by
  induction xs with
  | nil => intro s; simp [runZoomEpic]
  | cons i xs ih =>
    intro s
    obtain ⟨a, state⟩ := i
    rw [List.cons_append]
    cases hstep : zoomToVisibleAreaEpic c s a state with
    | error e => simp [runZoomEpic, hstep]
    | ok r =>
      obtain ⟨s1, out⟩ := r
      simp only [runZoomEpic, hstep, ih s1, List.append_assoc]

theorem zoom_run_origin_state (c : Collaborators) (m0 : MapState)
    (xs : List (Action × StoreState)) :
    ∀ (s : ZoomEpic) (past : List (Action × StoreState)), RestoreOrigin m0 past s →
      (runZoomEpic c s xs).failed = none →
      RestoreOrigin m0 (past ++ xs) (runZoomEpic c s xs).state := by
  induction xs with
  | nil => intro s past hinv _; simpa [runZoomEpic] using hinv
  | cons i xs ih =>
    intro s past hinv hok
    obtain ⟨a, state⟩ := i
    cases hstep : zoomToVisibleAreaEpic c s a state with
    | error e => simp [runZoomEpic, hstep] at hok
    | ok r =>
      obtain ⟨s1, out⟩ := r
      simp only [runZoomEpic, hstep] at hok ⊢
      have h1 := (zoom_step_origin c m0 past s s1 a state out hinv hstep).1
      have := ih s1 (past ++ [(a, state)]) h1 hok
      simpa using this

theorem zoom_run_origin_emitted (c : Collaborators) (m0 : MapState)
    (xs : List (Action × StoreState)) :
    ∀ (s : ZoomEpic) (past : List (Action × StoreState)), RestoreOrigin m0 past s →
      2 ≤ viewChanges past →
      ∀ e ∈ (runZoomEpic c s xs).emitted, e.isChangeMapView = true →
        ∃ i ∈ past ++ xs, i.1.isLoadOrError = true ∧ ∃ m, i.2.map = some m
          ∧ e = restoreAction c m := by
  induction xs with
  | nil => intro s past _ _ e he; simp [runZoomEpic] at he
  | cons i xs ih =>
    intro s past hinv h2 e he hcm
    obtain ⟨a, state⟩ := i
    cases hstep : zoomToVisibleAreaEpic c s a state with
    | error err => simp [runZoomEpic, hstep] at he
    | ok r =>
      obtain ⟨s1, out⟩ := r
      simp only [runZoomEpic, hstep, List.mem_append] at he
      have hst := zoom_step_origin c m0 past s s1 a state out hinv hstep
      rcases he with he | he
      · obtain ⟨r, hr, her⟩ := hst.2 e he hcm
        rcases hinv r hr with ⟨j, hj, hterm, hmap⟩ | ⟨_, _, hle⟩
        · exact ⟨j, List.mem_append_left _ hj, hterm, r.map, hmap, her⟩
        · omega
      · have h2' : 2 ≤ viewChanges (past ++ [(a, state)]) := by
          rw [viewChanges_append]; omega
        obtain ⟨j, hj, hterm, m, hmap, hem⟩ := ih s1 (past ++ [(a, state)]) hst.1 h2' e he hcm
        exact ⟨j, by simpa using hj, hterm, m, hmap, hem⟩
/-- Counterexample to C10 as stated: after the recenter of the sample click, one
`CHANGE_MAP_VIEW` and then a `CLOSE_IDENTIFY`; the close emits the `changeMapView` that
restores the centre and the zoom the map had before the recenter. -/
theorem single_view_change_keeps_restore :
    (runZoomEpic sampleCollaborators ZoomEpic.initial
        [(.featureInfoClick plainClick, sampleState), (sampleLoaded, sampleState),
          (sampleViewChange, sampleState), (.closeIdentify, sampleState)]).emitted
      = [.updateCenterToMarker "enabled",
          .zoomToPoint (.obj [("x", .num 700), ("y", .num 300)]) (.num 5) (.str "EPSG:4326"),
          .changeMapView sampleMap.center sampleMap.zoom
            (.obj [("center", sampleMap.center), ("zoom", .num 5)]) sampleMap.size .null
            sampleMap.projection] :=
  rfl

/-- C10 as amended (restore cancellation). After a recenter has been issued (the handler has
emitted `updateCenterToMarker('enabled')` and a `zoomToPoint`), if at least two
`CHANGE_MAP_VIEW` actions arrive before a close event, the first being the one the epic
skips as caused by its own `zoomToPoint`, then the restore armed by that recenter is
cancelled. From that close event on, (1) a `changeMapView` the epic emits can only be the
restore armed by a later recenter: it restores the map the store had at a
`LOAD_FEATURE_INFO` or `ERROR_FEATURE_INFO` action that arrived after the recenter; (2) when
no such action arrived after the recenter, the epic does not fail and that close event and
every later one emit nothing. -/
theorem restore_cancellation (c : Collaborators) (s0 s1 : ZoomEpic) (a : Action)
    (state : StoreState) (center : VisibleCenter) (mid post : List (Action × StoreState))
    (hrecenter : zoomToVisibleAreaEpic c s0 a state
      = .ok (s1, [.updateCenterToMarker "enabled",
          .zoomToPoint center.pos center.zoom center.crs]))
    (hchanges : 2 ≤ viewChanges mid) :
    (∀ e ∈ emittedAfter c s1 mid post, e.isChangeMapView = true →
        ∃ i ∈ mid ++ post, i.1.isLoadOrError = true ∧ ∃ m, i.2.map = some m
          ∧ e = restoreAction c m)
      ∧ ((∀ i ∈ mid ++ post, i.1.isLoadOrError = false) →
          (runZoomEpic c s1 (mid ++ post)).failed = none ∧ emittedAfter c s1 mid post = []) := by
  obtain ⟨m0, hm⟩ := armed_of_recenter c s0 s1 a state _ _ hrecenter
  have hinv : RestoreOrigin m0 [] s1 := by
    intro r hr
    rw [hm] at hr
    cases hr
    exact Or.inr ⟨rfl, by simp [viewChanges], by simp [viewChanges]⟩
  have hdrop : emittedAfter c s1 mid post
      = (match (runZoomEpic c s1 mid).failed with
          | none => (runZoomEpic c (runZoomEpic c s1 mid).state post).emitted
          | some _ => []) := by
    simp [emittedAfter, zoom_run_append_emitted]
  constructor
  · intro e he hcm
    rw [hdrop] at he
    cases hfail : (runZoomEpic c s1 mid).failed with
    | some err => simp [hfail] at he
    | none =>
      simp only [hfail] at he
      have hstate := zoom_run_origin_state c m0 mid s1 [] hinv hfail
      rw [List.nil_append] at hstate
      exact zoom_run_origin_emitted c m0 post _ mid hstate hchanges e he hcm
  · intro hno
    have hmid : ∀ i ∈ mid, i.1.isLoadOrError = false :=
      fun i hi => hno i (List.mem_append_left _ hi)
    have hpost : ∀ i ∈ post, i.1.isLoadOrError = false :=
      fun i hi => hno i (List.mem_append_right _ hi)
    have hcancel := zoom_run_cancels c mid s1 (by
      intro r hr
      rw [hm] at hr
      cases hr
      exact ⟨Nat.zero_le _, by simpa using hchanges⟩) hmid
    have hdis := zoom_run_disarmed c post _ hcancel.2 hpost
    have happ := zoom_run_append c mid post s1 hcancel.1
    refine ⟨?_, ?_⟩
    · rw [happ.1]; exact hdis.2.1
    · rw [hdrop, hcancel.1]
      exact hdis.1

/-- Witness of C10 as amended: after the recenter of the sample click, two `CHANGE_MAP_VIEW`
actions and then two `CLOSE_IDENTIFY` actions. -/
theorem restore_cancellation_witness :
    zoomToVisibleAreaEpic sampleCollaborators { click := some plainClick, restore := none }
        sampleLoaded sampleState
      = .ok ({ click := some plainClick, restore := some { map := sampleMap, changes := 0 } },
          [.updateCenterToMarker "enabled",
            .zoomToPoint (.obj [("x", .num 700), ("y", .num 300)]) (.num 5) (.str "EPSG:4326")])
      ∧ 2 ≤ viewChanges [(sampleViewChange, sampleState), (sampleViewChange, sampleState)]
      ∧ emittedAfter sampleCollaborators
          { click := some plainClick, restore := some { map := sampleMap, changes := 0 } }
          [(sampleViewChange, sampleState), (sampleViewChange, sampleState)]
          [(.closeIdentify, sampleState), (.closeIdentify, sampleState)]
        = [] :=
  ⟨rfl, by decide,
    ((restore_cancellation sampleCollaborators { click := some plainClick, restore := none }
      { click := some plainClick, restore := some { map := sampleMap, changes := 0 } }
      sampleLoaded sampleState
      { pos := .obj [("x", .num 700), ("y", .num 300)], zoom := .num 5, crs := .str "EPSG:4326" }
      [(sampleViewChange, sampleState), (sampleViewChange, sampleState)]
      [(.closeIdentify, sampleState), (.closeIdentify, sampleState)]
      rfl (by decide)).2 (by decide)).2⟩

/-! ## How often a restore fires -/

theorem restoreCount_append (xs ys : List Action) :
    restoreCount (xs ++ ys) = restoreCount xs + restoreCount ys := by
  simp [restoreCount, List.filter_append]

/-- One step of the epic that issues no recenter, from a state whose restore is the one of
`m0`. -/
theorem zoom_step_budget (c : Collaborators) (m0 : MapState) (s s1 : ZoomEpic) (a : Action)
    (state : StoreState) (out : List Action) (hinv : ArmedFor m0 s)
    (h : zoomToVisibleAreaEpic c s a state = .ok (s1, out))
    (hnew : ∀ e ∈ out, e.isZoomToPoint = false) :
    ArmedFor m0 s1
      ∧ restoresLeft s1 ≤ restoresLeft s
      ∧ (a.isChangeMapView = true → restoresLeft s1 ≤ restoresLeft s - 1)
      ∧ (a.isCloseIdentify = false → restoreCount out = 0)
      ∧ (restoreCount out = 0
          ∨ (restoreCount out = 1 ∧ s1 = s ∧ 1 ≤ restoresLeft s
              ∧ out.any Action.isChangeMapView = true))
      ∧ (∀ e ∈ out, e.isChangeMapView = true → e = restoreAction c m0) := by
  have hterm : ∀ action, onTerminalAction c s state action = .ok (s1, out) →
      s1.restore = none ∧ restoreCount out = 0 ∧ ∀ e ∈ out, e.isChangeMapView = false := by
    intro action hact
    unfold onTerminalAction at hact
    cases htev : onTerminalEvent c state action with
    | error e => simp [htev] at hact
    | ok r =>
      cases r with
      | disabled =>
        simp only [htev, Except.ok.injEq, Prod.mk.injEq] at hact
        rw [← hact.1, ← hact.2]
        exact ⟨rfl, rfl, by simp [Action.isChangeMapView]⟩
      | silent =>
        simp only [htev, Except.ok.injEq, Prod.mk.injEq] at hact
        rw [← hact.1, ← hact.2]
        exact ⟨rfl, rfl, by simp⟩
      | recenter center m =>
        simp only [htev, Except.ok.injEq, Prod.mk.injEq] at hact
        have := hnew (.zoomToPoint center.pos center.zoom center.crs) (by rw [← hact.2]; simp)
        simp [Action.isZoomToPoint] at this
  have hdisarmed : s1.restore = none → restoreCount out = 0 →
      (∀ e ∈ out, e.isChangeMapView = false) →
      ArmedFor m0 s1
        ∧ restoresLeft s1 ≤ restoresLeft s
        ∧ (a.isChangeMapView = true → restoresLeft s1 ≤ restoresLeft s - 1)
        ∧ (a.isCloseIdentify = false → restoreCount out = 0)
        ∧ (restoreCount out = 0
            ∨ (restoreCount out = 1 ∧ s1 = s ∧ 1 ≤ restoresLeft s
                ∧ out.any Action.isChangeMapView = true))
        ∧ (∀ e ∈ out, e.isChangeMapView = true → e = restoreAction c m0) := by
    intro hnone hcount hno
    have hleft : restoresLeft s1 = 0 := by simp [restoresLeft, hnone]
    refine ⟨fun r hr => ?_, ?_, fun _ => ?_, fun _ => hcount, Or.inl hcount,
      fun e he hcm => ?_⟩
    · rw [hnone] at hr
      cases hr
    · omega
    · omega
    · rw [hno e he] at hcm
      cases hcm
  have hsame : s1 = s → out = [] → a.isChangeMapView = false →
      ArmedFor m0 s1
        ∧ restoresLeft s1 ≤ restoresLeft s
        ∧ (a.isChangeMapView = true → restoresLeft s1 ≤ restoresLeft s - 1)
        ∧ (a.isCloseIdentify = false → restoreCount out = 0)
        ∧ (restoreCount out = 0
            ∨ (restoreCount out = 1 ∧ s1 = s ∧ 1 ≤ restoresLeft s
                ∧ out.any Action.isChangeMapView = true))
        ∧ (∀ e ∈ out, e.isChangeMapView = true → e = restoreAction c m0) := by
    intro hs hout ha
    subst hs hout
    refine ⟨hinv, Nat.le_refl _, fun hcm => ?_, fun _ => rfl, Or.inl rfl, ?_⟩
    · rw [ha] at hcm
      cases hcm
    · simp
  cases a
  case loadFeatureInfo =>
    cases hc : s.click with
    | none =>
      simp only [zoomToVisibleAreaEpic, hc, Except.ok.injEq, Prod.mk.injEq] at h
      exact hsame h.1.symm h.2.symm rfl
    | some action =>
      simp only [zoomToVisibleAreaEpic, hc] at h
      obtain ⟨h1, h2, h3⟩ := hterm action h
      exact hdisarmed h1 h2 h3
  case errorFeatureInfo =>
    cases hc : s.click with
    | none =>
      simp only [zoomToVisibleAreaEpic, hc, Except.ok.injEq, Prod.mk.injEq] at h
      exact hsame h.1.symm h.2.symm rfl
    | some action =>
      simp only [zoomToVisibleAreaEpic, hc] at h
      obtain ⟨h1, h2, h3⟩ := hterm action h
      exact hdisarmed h1 h2 h3
  case featureInfoClick click =>
    by_cases hcm : state.centerToMarker = true
    · simp only [zoomToVisibleAreaEpic, hcm, if_true, Except.ok.injEq, Prod.mk.injEq] at h
      obtain ⟨hs, hout⟩ := h
      subst hs hout
      exact hdisarmed rfl rfl (by simp)
    · simp only [zoomToVisibleAreaEpic, hcm, Bool.false_eq_true, if_false, Except.ok.injEq,
        Prod.mk.injEq] at h
      exact hsame h.1.symm h.2.symm rfl
  case closeIdentify =>
    cases hr : s.restore with
    | none =>
      simp only [zoomToVisibleAreaEpic, hr, Except.ok.injEq, Prod.mk.injEq] at h
      exact hsame h.1.symm h.2.symm rfl
    | some r =>
      simp only [zoomToVisibleAreaEpic, hr, Except.ok.injEq, Prod.mk.injEq] at h
      obtain ⟨hs, hout⟩ := h
      subst hs hout
      have hr' := hinv r hr
      refine ⟨hinv, Nat.le_refl _, fun hcm => ?_, fun hcl => ?_, Or.inr ⟨rfl, rfl, ?_, rfl⟩, ?_⟩
      · simp [Action.isChangeMapView] at hcm
      · simp [Action.isCloseIdentify] at hcl
      · simp only [restoresLeft, hr]; omega
      · intro e he _
        simp only [List.mem_singleton] at he
        rw [he, hr'.1]
  case changeMapView center zoom bbox size src proj =>
    cases hr : s.restore with
    | none =>
      simp only [zoomToVisibleAreaEpic, hr, Except.ok.injEq, Prod.mk.injEq] at h
      obtain ⟨hs, hout⟩ := h
      subst hs hout
      exact hdisarmed hr rfl (by simp)
    | some r =>
      have hr' := hinv r hr
      by_cases hch : r.changes ≥ 1
      · simp only [zoomToVisibleAreaEpic, hr, hch, if_true, Except.ok.injEq,
          Prod.mk.injEq] at h
        obtain ⟨hs, hout⟩ := h
        subst hs hout
        exact hdisarmed rfl rfl (by simp)
      · simp only [zoomToVisibleAreaEpic, hr, hch, if_false, Except.ok.injEq,
          Prod.mk.injEq] at h
        obtain ⟨hs, hout⟩ := h
        subst hs hout
        have h0 : r.changes = 0 := by omega
        refine ⟨fun r1 hr1 => ?_, ?_, fun _ => ?_, fun _ => rfl, Or.inl rfl, ?_⟩
        · simp only [Option.some.injEq] at hr1
          subst hr1
          refine ⟨hr'.1, ?_⟩
          simp only
          omega
        · simp only [restoresLeft, hr]; omega
        · simp only [restoresLeft, hr]; omega
        · simp
  all_goals
    simp only [zoomToVisibleAreaEpic, Except.ok.injEq, Prod.mk.injEq] at h
    exact hsame h.1.symm h.2.symm rfl

theorem not_close_of_changeMapView (a : Action) (h : a.isChangeMapView = true) :
    a.isCloseIdentify = false := by
  cases a <;> first | rfl | simp [Action.isChangeMapView] at h

theorem viewChanges_cons (a : Action) (state : StoreState) (xs : List (Action × StoreState)) :
    viewChanges ((a, state) :: xs) = (if a.isChangeMapView then 1 else 0) + viewChanges xs := by
  simp only [viewChanges, List.filter_cons]
  cases a.isChangeMapView
  · simp
  · simp only [if_true, List.length_cons]
    omega

/-- On a fed-back trace on which no recenter is issued, every `changeMapView` emitted is the
restore of `m0`, and there are at most as many as the restore has left, less the
`CHANGE_MAP_VIEW` actions that arrive before the first `CLOSE_IDENTIFY`. -/
theorem zoom_run_budget (c : Collaborators) (m0 : MapState)
    (trace : List (Action × StoreState)) :
    ∀ s : ZoomEpic, ArmedFor m0 s → fedBack c s trace = true →
      (∀ e ∈ (runZoomEpic c s trace).emitted, e.isZoomToPoint = false) →
      (∀ e ∈ (runZoomEpic c s trace).emitted, e.isChangeMapView = true →
          e = restoreAction c m0)
        ∧ (∀ pre rest, trace = pre ++ rest → (∀ i ∈ pre, i.1.isCloseIdentify = false) →
            restoreCount (runZoomEpic c s trace).emitted ≤ restoresLeft s - viewChanges pre) := by
  induction trace with
  | nil =>
    intro s _ _ _
    simp [runZoomEpic, restoreCount]
  | cons i t ih =>
    intro s hinv hfed hnew
    obtain ⟨a, state⟩ := i
    cases hstep : zoomToVisibleAreaEpic c s a state with
    | error err => simp [runZoomEpic, hstep, restoreCount]
    | ok r =>
      obtain ⟨s1, out⟩ := r
      simp only [runZoomEpic, hstep] at hnew ⊢
      simp only [fedBack, hstep, Bool.and_eq_true] at hfed
      obtain ⟨hnext, hfed1⟩ := hfed
      have hnewOut : ∀ e ∈ out, e.isZoomToPoint = false :=
        fun e he => hnew e (List.mem_append_left _ he)
      have hnewRest : ∀ e ∈ (runZoomEpic c s1 t).emitted, e.isZoomToPoint = false :=
        fun e he => hnew e (List.mem_append_right _ he)
      obtain ⟨hinv1, hle, hcmv, hnoclose, hcount, hsame⟩ :=
        zoom_step_budget c m0 s s1 a state out hinv hstep hnewOut
      obtain ⟨ihsame, ihcount⟩ := ih s1 hinv1 hfed1 hnewRest
      refine ⟨fun e he hcm => ?_, fun pre rest hsplit hpre => ?_⟩
      · rcases List.mem_append.mp he with he | he
        · exact hsame e he hcm
        · exact ihsame e he hcm
      · rw [restoreCount_append]
        cases pre with
        | nil =>
          simp only [viewChanges, List.filter_nil, List.length_nil, Nat.sub_zero]
          rcases hcount with h0 | ⟨h1, hs, hpos, hany⟩
          · have := ihcount [] t rfl (by simp)
            simp only [viewChanges, List.filter_nil, List.length_nil, Nat.sub_zero] at this
            omega
          · subst hs
            cases t with
            | nil => simp [runZoomEpic, restoreCount] at *; omega
            | cons j t' =>
              obtain ⟨b, stb⟩ := j
              have hb : b.isChangeMapView = true := by simpa [hany] using hnext
              have := ihcount [(b, stb)] t' rfl (by
                intro i hi
                simp only [List.mem_singleton] at hi
                rw [hi]
                exact not_close_of_changeMapView b hb)
              rw [viewChanges_cons, hb] at this
              simp only [if_true, viewChanges, List.filter_nil, List.length_nil,
                Nat.add_zero] at this
              omega
        | cons p pre' =>
          simp only [List.cons_append, List.cons.injEq] at hsplit
          obtain ⟨hp, ht⟩ := hsplit
          subst hp
          have hclose : a.isCloseIdentify = false := hpre (a, state) (List.mem_cons_self _ _)
          have h0 := hnoclose hclose
          have := ihcount pre' rest ht (fun i hi => hpre i (List.mem_cons_of_mem _ hi))
          rw [viewChanges_cons]
          by_cases hcm : a.isChangeMapView = true
          · have := hcmv hcm
            simp only [hcm, if_true]
            omega
          · simp only [hcm, Bool.false_eq_true, if_false]
            omega

/-- On a quiet trace an armed restore stays armed, counting the `CHANGE_MAP_VIEW` actions,
until the second of them, which completes it. -/
theorem zoom_run_quiet (c : Collaborators) (m : MapState) (xs : List (Action × StoreState)) :
    ∀ (s : ZoomEpic) (k : Nat), s.restore = some { map := m, changes := k } → k ≤ 1 →
      Quiet xs →
      (runZoomEpic c s xs).failed = none
        ∧ (runZoomEpic c s xs).state.restore
          = (if k + viewChanges xs < 2 then some { map := m, changes := k + viewChanges xs }
              else none) := by
  induction xs with
  | nil =>
    intro s k hs hk _
    have hlt : k + viewChanges [] < 2 := by simp [viewChanges]; omega
    simp only [runZoomEpic, hs, if_pos hlt]
    simp [viewChanges]
  | cons i xs ih =>
    intro s k hs hk hq
    obtain ⟨a, state⟩ := i
    have hi := hq (a, state) (List.mem_cons_self _ _)
    have hrest : Quiet xs := fun j hj => hq j (List.mem_cons_of_mem _ hj)
    have hkeep : zoomToVisibleAreaEpic c s a state = .ok (s, []) → a.isChangeMapView = false →
        (runZoomEpic c s ((a, state) :: xs)).failed = none
          ∧ (runZoomEpic c s ((a, state) :: xs)).state.restore
            = (if k + viewChanges ((a, state) :: xs) < 2
                then some { map := m, changes := k + viewChanges ((a, state) :: xs) }
                else none) := by
      intro hstep ha
      simp only [runZoomEpic, hstep, viewChanges_cons, ha, Bool.false_eq_true, if_false,
        Nat.zero_add]
      exact ih s k hs hk hrest
    cases a
    case loadFeatureInfo => simp [Action.isLoadOrError] at hi
    case errorFeatureInfo => simp [Action.isLoadOrError] at hi
    case featureInfoClick click =>
      have hoff : state.centerToMarker = false := hi.2 rfl
      exact hkeep (by simp [zoomToVisibleAreaEpic, hoff]) rfl
    case closeIdentify =>
      have hstep : zoomToVisibleAreaEpic c s .closeIdentify state
          = .ok (s, [restoreAction c m]) := by
        simp [zoomToVisibleAreaEpic, hs]
      simp only [runZoomEpic, hstep, viewChanges_cons, Action.isChangeMapView,
        Bool.false_eq_true, if_false, Nat.zero_add]
      exact ih s k hs hk hrest
    case changeMapView center zoom bbox size src proj =>
      by_cases hch : k ≥ 1
      · have hstep : zoomToVisibleAreaEpic c s (.changeMapView center zoom bbox size src proj)
            state = .ok ({ s with restore := none }, []) := by
          simp [zoomToVisibleAreaEpic, hs, hch]
        have hdis := zoom_run_disarmed c xs { s with restore := none } rfl
          (fun j hj => (hrest j hj).1)
        have hge : ¬ (k + viewChanges ((Action.changeMapView center zoom bbox size src proj,
            state) :: xs) < 2) := by
          rw [viewChanges_cons]
          simp only [Action.isChangeMapView, if_true]
          omega
        simp only [runZoomEpic, hstep, if_neg hge]
        exact ⟨hdis.2.1, hdis.2.2⟩
      · have hk0 : k = 0 := by omega
        subst hk0
        have hstep : zoomToVisibleAreaEpic c s (.changeMapView center zoom bbox size src proj)
            state = .ok ({ s with restore := some { map := m, changes := 1 } }, []) := by
          simp [zoomToVisibleAreaEpic, hs]
        have := ih { s with restore := some { map := m, changes := 1 } } 1 rfl (Nat.le_refl _)
          hrest
        simp only [runZoomEpic, hstep, viewChanges_cons, Action.isChangeMapView, if_true,
          Nat.zero_add]
        exact this
    all_goals exact hkeep (by simp [zoomToVisibleAreaEpic]) rfl

/-- What a `CLOSE_IDENTIFY` emits after a quiet trace that follows the arming of a restore:
the restore when fewer than two `CHANGE_MAP_VIEW` actions have arrived, nothing otherwise. -/
theorem close_after_quiet (c : Collaborators) (m : MapState) (s : ZoomEpic)
    (xs : List (Action × StoreState)) (state : StoreState)
    (hs : s.restore = some { map := m, changes := 0 }) (hq : Quiet xs) :
    emittedAfter c s xs [(.closeIdentify, state)]
      = (if viewChanges xs < 2 then [restoreAction c m] else []) := by
  have hrun := zoom_run_quiet c m xs s 0 hs (Nat.zero_le _) hq
  rw [Nat.zero_add] at hrun
  have hdrop : emittedAfter c s xs [(.closeIdentify, state)]
      = (runZoomEpic c (runZoomEpic c s xs).state [(.closeIdentify, state)]).emitted := by
    simp [emittedAfter, zoom_run_append_emitted, hrun.1]
  rw [hdrop]
  by_cases hlt : viewChanges xs < 2
  · have hr := hrun.2
    rw [if_pos hlt] at hr
    simp [runZoomEpic, zoomToVisibleAreaEpic, hr, hlt]
  · have hr := hrun.2
    rw [if_neg hlt] at hr
    simp [runZoomEpic, zoomToVisibleAreaEpic, hr, hlt]

theorem armed_with_map_of_recenter (c : Collaborators) (s0 s1 : ZoomEpic) (a : Action)
    (state : StoreState) (m : MapState) (x y : Action) (hmap : state.map = some m)
    (h : zoomToVisibleAreaEpic c s0 a state = .ok (s1, [x, y])) :
    s1.restore = some { map := m, changes := 0 } := by
  have hterm : ∀ action, onTerminalAction c s0 state action = .ok (s1, [x, y]) →
      s1.restore = some { map := m, changes := 0 } := by
    intro action hact
    unfold onTerminalAction at hact
    cases htev : onTerminalEvent c state action with
    | error e => simp [htev] at hact
    | ok r =>
      cases r with
      | disabled => simp [htev] at hact
      | silent => simp [htev] at hact
      | recenter center m' =>
        simp only [htev, Except.ok.injEq, Prod.mk.injEq] at hact
        have hm' := onTerminalEvent_recenter_map c state action center m' htev
        rw [hmap] at hm'
        cases hm'
        rw [← hact.1]
  cases a
  case loadFeatureInfo =>
    cases hc : s0.click with
    | none => simp [zoomToVisibleAreaEpic, hc] at h
    | some action => exact hterm action (by simpa [zoomToVisibleAreaEpic, hc] using h)
  case errorFeatureInfo =>
    cases hc : s0.click with
    | none => simp [zoomToVisibleAreaEpic, hc] at h
    | some action => exact hterm action (by simpa [zoomToVisibleAreaEpic, hc] using h)
  case featureInfoClick click =>
    by_cases hc : state.centerToMarker = true <;> simp [zoomToVisibleAreaEpic, hc] at h
  case closeIdentify =>
    cases hr : s0.restore <;> simp [zoomToVisibleAreaEpic, hr] at h
  case changeMapView =>
    cases hr : s0.restore with
    | none => simp [zoomToVisibleAreaEpic, hr] at h
    | some r => by_cases hch : r.changes ≥ 1 <;> simp [zoomToVisibleAreaEpic, hr, hch] at h
  all_goals simp [zoomToVisibleAreaEpic] at h

/-- Counterexample to C11 as stated: the sample click and its loaded event issue a recenter
(whose two actions come back on `action$`); a `CLOSE_IDENTIFY` arrives before the map has
reported any change of view and emits the restore, which comes back as the first
`CHANGE_MAP_VIEW` and is skipped; a second `CLOSE_IDENTIFY` emits the same restore again. No
recenter is issued between the two close events. -/
theorem restore_fires_twice :
    (runZoomEpic sampleCollaborators ZoomEpic.initial fedBackTrace).emitted
        = [.updateCenterToMarker "enabled",
            .zoomToPoint (.obj [("x", .num 700), ("y", .num 300)]) (.num 5) (.str "EPSG:4326"),
            restoreAction sampleCollaborators sampleMap,
            restoreAction sampleCollaborators sampleMap]
      ∧ fedBack sampleCollaborators ZoomEpic.initial fedBackTrace = true
      ∧ restoreAction sampleCollaborators sampleMap
        = .changeMapView sampleMap.center sampleMap.zoom
            (.obj [("center", sampleMap.center), ("zoom", .num 5)]) sampleMap.size .null
            sampleMap.projection :=
  ⟨rfl, rfl, rfl⟩

/-- C11 as amended (how often a restore fires). Take a recenter, issued with the map `m` in
the store; it arms one restore, that of `m` (its centre, its zoom, the bbox recomputed from
them, its size, its projection), and the restore is not one-shot.
(1) After a trace on which no `LOAD_FEATURE_INFO` or `ERROR_FEATURE_INFO` action and no
click with recentring on has arrived, a `CLOSE_IDENTIFY` emits exactly that restore when
fewer than two `CHANGE_MAP_VIEW` actions have arrived since the recenter, whether or not an
earlier close has emitted it, and emits nothing when two or more have.
(2) On a trace on which each `changeMapView` the epic emits comes back on `action$` as the
next `CHANGE_MAP_VIEW` and on which no new recenter is issued, every `changeMapView` emitted
is that restore, and it is emitted at most twice, at most once when a `CHANGE_MAP_VIEW`
arrives before the first close event, and never when two do. -/
theorem restore_fires_at_most_twice (c : Collaborators) (s0 s1 : ZoomEpic) (a : Action)
    (state : StoreState) (m : MapState) (center : VisibleCenter)
    (hmap : state.map = some m)
    (hrecenter : zoomToVisibleAreaEpic c s0 a state
      = .ok (s1, [.updateCenterToMarker "enabled",
          .zoomToPoint center.pos center.zoom center.crs])) :
    (∀ (xs : List (Action × StoreState)) (later : StoreState), Quiet xs →
        emittedAfter c s1 xs [(.closeIdentify, later)]
          = (if viewChanges xs < 2 then [restoreAction c m] else []))
      ∧ (∀ pre rest : List (Action × StoreState),
          fedBack c s1 (pre ++ rest) = true →
          (∀ e ∈ (runZoomEpic c s1 (pre ++ rest)).emitted, e.isZoomToPoint = false) →
          (∀ i ∈ pre, i.1.isCloseIdentify = false) →
          (∀ e ∈ (runZoomEpic c s1 (pre ++ rest)).emitted, e.isChangeMapView = true →
              e = restoreAction c m)
            ∧ restoreCount (runZoomEpic c s1 (pre ++ rest)).emitted
              ≤ 2 - viewChanges pre) := by
  have harmed := armed_with_map_of_recenter c s0 s1 a state m _ _ hmap hrecenter
  refine ⟨fun xs later hq => close_after_quiet c m s1 xs later harmed hq, ?_⟩
  intro pre rest hfed hnew hpre
  have hinv : ArmedFor m s1 := by
    intro r hr
    rw [harmed] at hr
    cases hr
    exact ⟨rfl, Nat.zero_le _⟩
  have hbudget := zoom_run_budget c m (pre ++ rest) s1 hinv hfed hnew
  refine ⟨hbudget.1, ?_⟩
  have := hbudget.2 pre rest rfl hpre
  simpa [restoresLeft, harmed] using this

/-- Witness of C11 as amended, after the recenter of the sample click. A `CLOSE_IDENTIFY`
that follows a first close and the restore that came back emits the restore again; once the
map has also reported a change of view, a `CLOSE_IDENTIFY` emits nothing. And when the map
reports its change of view before the first of two closes, the restore is emitted once. -/
theorem restore_fires_at_most_twice_witness :
    zoomToVisibleAreaEpic sampleCollaborators { click := some plainClick, restore := none }
        sampleLoaded sampleState
      = .ok ({ click := some plainClick, restore := some { map := sampleMap, changes := 0 } },
          [.updateCenterToMarker "enabled",
            .zoomToPoint (.obj [("x", .num 700), ("y", .num 300)]) (.num 5) (.str "EPSG:4326")])
      ∧ emittedAfter sampleCollaborators
          { click := some plainClick, restore := some { map := sampleMap, changes := 0 } }
          (recenterEcho ++ closeAndEcho) [(.closeIdentify, sampleState)]
        = [restoreAction sampleCollaborators sampleMap]
      ∧ emittedAfter sampleCollaborators
          { click := some plainClick, restore := some { map := sampleMap, changes := 0 } }
          (recenterEcho ++ closeAndEcho ++ [(sampleViewChange, sampleState)])
          [(.closeIdentify, sampleState)]
        = []
      ∧ restoreCount (runZoomEpic sampleCollaborators
          { click := some plainClick, restore := some { map := sampleMap, changes := 0 } }
          (reportedFirst ++ twoCloses)).emitted ≤ 2 - viewChanges reportedFirst
      ∧ 2 - viewChanges reportedFirst = 1 :=
  ⟨rfl,
    (restore_fires_at_most_twice sampleCollaborators
      { click := some plainClick, restore := none }
      { click := some plainClick, restore := some { map := sampleMap, changes := 0 } }
      sampleLoaded sampleState sampleMap
      { pos := .obj [("x", .num 700), ("y", .num 300)], zoom := .num 5, crs := .str "EPSG:4326" }
      rfl rfl).1 (recenterEcho ++ closeAndEcho) sampleState (by unfold Quiet; decide),
    (restore_fires_at_most_twice sampleCollaborators
      { click := some plainClick, restore := none }
      { click := some plainClick, restore := some { map := sampleMap, changes := 0 } }
      sampleLoaded sampleState sampleMap
      { pos := .obj [("x", .num 700), ("y", .num 300)], zoom := .num 5, crs := .str "EPSG:4326" }
      rfl rfl).1 (recenterEcho ++ closeAndEcho ++ [(sampleViewChange, sampleState)])
      sampleState (by unfold Quiet; decide),
    ((restore_fires_at_most_twice sampleCollaborators
      { click := some plainClick, restore := none }
      { click := some plainClick, restore := some { map := sampleMap, changes := 0 } }
      sampleLoaded sampleState sampleMap
      { pos := .obj [("x", .num 700), ("y", .num 300)], zoom := .num 5, crs := .str "EPSG:4326" }
      rfl rfl).2 reportedFirst twoCloses rfl (by decide) (by decide)).2,
    rfl⟩

/-! ## The pinned item in the two branches of the executor -/

theorem getField_id (f : JSVal) (h : isNil f = false) : getField f "id" = .ok (idOf f) := by
  cases f <;> simp [isNil] at h <;> rfl

theorem filterThrowing_all (p : JSVal → Except Fault Bool) (fs : List JSVal)
    (hp : ∀ f, p f = .ok true) : filterThrowing p fs = .ok fs := by
  induction fs with
  | nil => rfl
  | cons f fs ih => simp [filterThrowing, hp f, ih]

theorem filterThrowing_filter (p : JSVal → Except Fault Bool) (q : JSVal → Bool)
    (fs : List JSVal) (hp : ∀ f ∈ fs, p f = .ok (q f)) :
    filterThrowing p fs = .ok (fs.filter q) := by
  induction fs with
  | nil => rfl
  | cons f fs ih =>
    have hf := hp f (List.mem_cons_self _ _)
    have hrest := ih (fun g hg => hp g (List.mem_cons_of_mem _ hg))
    simp only [filterThrowing, hf, hrest, List.filter_cons]

/-- The two-fetch branch follows the rule of the specification: on a payload whose `features`
is a list of features, none `null` or `undefined`, it returns `pinnedFilter itemId`. -/
theorem twoFetch_features (parseURN : JSVal → JSVal) (itemId : JSVal) (response : AxiosResponse)
    (fields : JSObj) (fs : List JSVal) (hfs : objGet fields "features" = .arr fs)
    (hobj : ∀ f ∈ fs, isNil f = false) :
    Except.map (fun r => r.features) (mergeGeometry parseURN itemId response (.obj fields))
      = .ok (.arr (pinnedFilter itemId fs)) := by
  have hfilter : filterThrowing (pinnedNotNil itemId) fs = .ok (pinnedFilter itemId fs) := by
    unfold pinnedFilter
    by_cases hnil : isNil itemId = true
    · rw [if_pos hnil]
      exact filterThrowing_all _ fs (fun f => by simp [pinnedNotNil, hnil])
    · rw [if_neg hnil]
      apply filterThrowing_filter
      intro f hf
      simp [pinnedNotNil, hnil, getField_id f (hobj f hf)]
  simp [mergeGeometry, featuresOf, featuresCrsOf, truthy, getField, hfs, jsFilter, hfilter,
    Except.map]

/-- The single-fetch branch follows the same rule when the pinned id is absent or truthy. -/
theorem singleFetch_features (parseURN : JSVal → JSVal) (itemId : JSVal) (fields : JSObj)
    (fs : List JSVal) (hfs : objGet fields "features" = .arr fs)
    (hobj : ∀ f ∈ fs, isNil f = false) (hid : truthy itemId = !isNil itemId) :
    Except.map (fun r => r.features) (singleFetch parseURN itemId (.obj fields))
        = .ok (.arr (pinnedFilter itemId fs))
      ∧ Except.map (fun r => r.data) (singleFetch parseURN itemId (.obj fields))
        = .ok (.obj (objSet fields "features" (.arr (pinnedFilter itemId fs)))) := by
  have hfilter : filterThrowing (pinnedTruthy itemId) fs = .ok (pinnedFilter itemId fs) := by
    unfold pinnedFilter
    by_cases hnil : isNil itemId = true
    · rw [if_pos hnil]
      exact filterThrowing_all _ fs (fun f => by simp [pinnedTruthy, hid, hnil])
    · rw [if_neg hnil]
      apply filterThrowing_filter
      intro f hf
      simp [pinnedTruthy, hid, hnil, getField_id f (hobj f hf)]
  constructor <;>
    simp [singleFetch, isString, featuresOfUnguarded, featuresCrsOf, truthy, getField, hfs,
      jsFilter, hfilter, Except.map, spreadOf]

/-- A string payload passes through the single-fetch branch unchanged, without features. -/
theorem singleFetch_string (parseURN : JSVal → JSVal) (itemId : JSVal) (body : String) :
    Except.map (fun r => r.data) (singleFetch parseURN itemId (.str body)) = .ok (.str body)
      ∧ Except.map (fun r => r.features) (singleFetch parseURN itemId (.str body))
        = .ok .undefined := by
  by_cases hb : body = "" <;>
    simp [singleFetch, isString, featuresOfUnguarded, featuresCrsOf, getField, truthy,
      Except.map, hb]

/-- C12, the defect. The single-fetch branch tests `itemId ? ... : true` where the two-fetch
branch tests `!isNil(itemId) ? ... : true`: for a pinned id that is present and falsy (the
number 0, the empty string) the single-fetch branch does not filter. On a payload whose
`features` is the list `fs` it returns all of `fs`, as `features` and inside `data`, whatever
the ids of the features. -/
theorem single_fetch_ignores_falsy_pinned_id (parseURN : JSVal → JSVal) (itemId : JSVal)
    (fields : JSObj) (fs : List JSVal) (hfalsy : truthy itemId = false)
    (hfs : objGet fields "features" = .arr fs) :
    Except.map (fun r => r.features) (singleFetch parseURN itemId (.obj fields))
        = .ok (.arr fs)
      ∧ Except.map (fun r => r.data) (singleFetch parseURN itemId (.obj fields))
        = .ok (.obj (objSet fields "features" (.arr fs))) := by
  have hfilter : filterThrowing (pinnedTruthy itemId) fs = .ok fs :=
    filterThrowing_all _ fs (fun f => by simp [pinnedTruthy, hfalsy])
  constructor <;>
    simp [singleFetch, isString, featuresOfUnguarded, featuresCrsOf, truthy, getField, hfs,
      jsFilter, hfilter, Except.map, spreadOf]

/-- Witness of the defect: the pinned id is the number 0 and the payload has the features 0
and 1. The single-fetch branch returns both features; the two-fetch branch, for the same
payload, returns the feature 0 only. -/
theorem single_fetch_ignores_falsy_pinned_id_witness :
    truthy (.num 0) = false
      ∧ Except.map (fun r => r.features) (singleFetch (fun v => v) (.num 0) (.obj zeroAndOne))
        = .ok (.arr [featureWithId (.num 0), featureWithId (.num 1)])
      ∧ Except.map (fun r => r.features)
          (mergeGeometry (fun v => v) (.num 0) (responseOf (.str "<html/>")) (.obj zeroAndOne))
        = .ok (.arr [featureWithId (.num 0)]) :=
  ⟨rfl,
    (single_fetch_ignores_falsy_pinned_id (fun v => v) (.num 0) zeroAndOne
      [featureWithId (.num 0), featureWithId (.num 1)] rfl rfl).1,
    rfl⟩

end Identify
